import Mathlib

/-!
Verification of the Google-Shopping scraper against its specification.

The development shallowly embeds the JavaScript sources:

* src/utils/utils.js       : convertArabicNumerals, extractNumbers, formatRating,
                             getLowestPrice, getHighestPrice, getAveragePrice
* src/stores/google.js     : scrapeGoogleShopping (store loop, price-selector
                             cascades, brand/category classification, review and
                             rating-distribution parsing)
* src/utils/captchaHandler.js : detectCaptcha
* src/scrapper.js          : expandSection (click/retry loop)

JavaScript numbers are modelled as rationals plus an explicit NaN value
(JSNum); JavaScript values occurring as prices or ratings are modelled by
JSVal (null, undefined, finite number, NaN, string).  DOM access through
cheerio or puppeteer is modelled by oracle functions from selector strings
to query results, so every embedded function is a pure total Lean function.
String.prototype.toFixed is modelled over rationals; parseFloat and parseInt
are modelled faithfully for finite inputs (the nonfinite literal "Infinity"
is not modelled, it does not occur in the data handled here).
-/

/-! ## JavaScript primitive models -/

/-- A JavaScript number: either NaN or a finite value (modelled as a rational). -/
inductive JSNum where
  | nan : JSNum
  | val (x : Rat) : JSNum
deriving DecidableEq

/-- A JavaScript value in a price/rating position:
null, undefined, a finite number, NaN, or a string. -/
inductive JSVal where
  | null : JSVal
  | undef : JSVal
  | num (x : Rat) : JSVal
  | nan : JSVal
  | str (s : String) : JSVal
deriving DecidableEq

/-- An integer-typed JavaScript result (parseInt): NaN or an integer. -/
inductive JSInt where
  | nan : JSInt
  | val (n : Int) : JSInt
deriving DecidableEq

/-- The whitespace characters recognised by JavaScript (\s, trim, parseFloat). -/
def isJsWhitespace (c : Char) : Bool :=
  c = ' ' || c = '\t' || c = '\n' || c = '\r' ||
  c = '\x0b' || c = '\x0c' || c = ' ' || c = '﻿'

/-- Model of String.prototype.trim. -/
def jsTrim (s : String) : String :=
  String.mk (((s.data.dropWhile isJsWhitespace).reverse.dropWhile isJsWhitespace).reverse)

/-- Model of String.prototype.toLowerCase (ASCII range, which is all the
source's patterns rely on). -/
def jsToLowerCase (s : String) : String :=
  String.mk (s.data.map Char.toLower)

/-- Substring test on character lists (used to model String.prototype.includes). -/
def listIsInfixOf (pat s : List Char) : Bool :=
  match s with
  | [] => pat.isEmpty
  | _ :: r => pat.isPrefixOf s || listIsInfixOf pat r

/-- Model of String.prototype.includes: jsIncludes s pat is s.includes(pat). -/
def jsIncludes (s pat : String) : Bool :=
  listIsInfixOf pat.data s.data

/-- Value of a digit string, most significant first. -/
def digitsToNat (ds : List Char) : Nat :=
  ds.foldl (fun a c => 10 * a + (c.toNat - 48)) 0

/-- Model of s.replace(/,/g, ""): remove every comma. -/
def stripCommas (s : String) : String :=
  String.mk (s.data.filter (fun c => c ≠ ','))

/-- Model of s.replace(/,/g, "."): replace every comma by a period. -/
def commaToDot (s : String) : String :=
  String.mk (s.data.map (fun c => if c = ',' then '.' else c))

/-- Model of s.replace(pat, repl) with a string pattern: replace the first
occurrence only. -/
def replaceFirstAux (pat repl : List Char) : List Char → List Char
  | [] => if pat.isEmpty then repl else []
  | c :: r =>
    if pat.isPrefixOf (c :: r) then repl ++ (c :: r).drop pat.length
    else c :: replaceFirstAux pat repl r

/-- Model of String.prototype.replace with a plain-string pattern. -/
def jsReplaceFirst (s pat repl : String) : String :=
  String.mk (replaceFirstAux pat.data repl.data s.data)

/-- The syntactic parts of a successful parseFloat parse: sign, integer
digits, fraction digits, decimal exponent. -/
structure FloatParts where
  neg : Bool
  ip : List Char
  fp : List Char
  e : Int
deriving DecidableEq

/-- The character-level part of parseFloat: skip leading whitespace, optional
sign, integer digits, optional fraction after a period, optional e/E exponent
(ignored when it carries no digits, as in JavaScript); none when no digit was
consumed (parseFloat returns NaN). -/
def jsParseFloatParts (s : String) : Option FloatParts :=
  let cs0 := s.data.dropWhile isJsWhitespace
  let signNeg : Bool :=
    match cs0 with
    | '-' :: _ => true
    | _ => false
  let cs1 :=
    match cs0 with
    | '-' :: r => r
    | '+' :: r => r
    | _ => cs0
  let ip := cs1.takeWhile Char.isDigit
  let cs2 := cs1.drop ip.length
  let fp :=
    match cs2 with
    | '.' :: r => r.takeWhile Char.isDigit
    | _ => []
  let cs3 :=
    match cs2 with
    | '.' :: r => r.drop fp.length
    | _ => cs2
  if ip.isEmpty && fp.isEmpty then none
  else
    let e : Int :=
      match cs3 with
      | c :: r =>
        if c = 'e' || c = 'E' then
          let eneg : Bool :=
            match r with
            | '-' :: _ => true
            | _ => false
          let r1 :=
            match r with
            | '-' :: r2 => r2
            | '+' :: r2 => r2
            | _ => r
          let ed := r1.takeWhile Char.isDigit
          if ed.isEmpty then 0
          else if eneg then -(digitsToNat ed : Int) else (digitsToNat ed : Int)
        else 0
      | [] => 0
    some ⟨signNeg, ip, fp, e⟩

/-- Numeric value of parsed parts. -/
def floatPartsValue (p : FloatParts) : Rat :=
  let mant : Rat := (digitsToNat p.ip : Rat) + (digitsToNat p.fp : Rat) / (10 : Rat) ^ p.fp.length
  let v := mant * (10 : Rat) ^ p.e
  if p.neg then -v else v

/-- Model of parseFloat: none is NaN. -/
def jsParseFloat (s : String) : Option Rat :=
  (jsParseFloatParts s).map floatPartsValue

/-- Model of parseInt(s, 10): skip whitespace, optional sign, leading digits;
none is NaN. -/
def jsParseInt (s : String) : Option Int :=
  let cs0 := s.data.dropWhile isJsWhitespace
  let signNeg : Bool :=
    match cs0 with
    | '-' :: _ => true
    | _ => false
  let cs1 :=
    match cs0 with
    | '-' :: r => r
    | '+' :: r => r
    | _ => cs0
  let ds := cs1.takeWhile Char.isDigit
  if ds.isEmpty then none
  else some (if signNeg then -(digitsToNat ds : Int) else (digitsToNat ds : Int))

/-- Option Int to the JavaScript integer value it denotes. -/
def toJSInt : Option Int → JSInt
  | none => .nan
  | some n => .val n

/-- Model of Number(x.toFixed(1)) on a finite number.  ECMA toFixed picks the
integer n closest to x times 10, taking the larger n on ties, which is
Mathlib round. -/
def toFixed1 (x : Rat) : Rat := (round (x * 10) : Int) / 10

/-- Model of Number(x.toFixed(2)) on a finite number. -/
def toFixed2 (x : Rat) : Rat := (round (x * 100) : Int) / 100

/-! ## src/utils/utils.js : convertArabicNumerals -/

/-- The 12-glyph table of convertArabicNumerals: Arabic-Indic digits plus the
Arabic thousands separator and decimal separator; every other character is
returned unchanged (table lookup with fallback to the character itself). -/
def arabicToWestern (c : Char) : Char :=
  if c = '٠' then '0' else
  if c = '١' then '1' else
  if c = '٢' then '2' else
  if c = '٣' then '3' else
  if c = '٤' then '4' else
  if c = '٥' then '5' else
  if c = '٦' then '6' else
  if c = '٧' then '7' else
  if c = '٨' then '8' else
  if c = '٩' then '9' else
  if c = '٬' then ',' else
  if c = '٫' then '.' else c

/-- The 12 mapped glyphs. -/
def arabicGlyphs : List Char :=
  ['٠', '١', '٢', '٣', '٤', '٥', '٦', '٧', '٨', '٩', '٬', '٫']

/-- Model of convertArabicNumerals(text): null on empty/absent input,
otherwise the character-by-character conversion. -/
def convertArabicNumerals : Option String → Option String
  | none => none
  | some t =>
    if t = "" then none
    else some (String.mk (t.data.map arabicToWestern))

/-! ## src/utils/utils.js : extractNumbers -/

/-- The character class of the regex [\d,\.] used by extractNumbers. -/
def isNumRunChar (c : Char) : Bool :=
  c.isDigit || c = ',' || c = '.'

/-- Worker for matchRuns: cur is the reversed run currently being read. -/
def matchRunsAux : List Char → List Char → List (List Char)
  | cur, [] => if cur.isEmpty then [] else [cur.reverse]
  | cur, c :: r =>
    if isNumRunChar c then matchRunsAux (c :: cur) r
    else if cur.isEmpty then matchRunsAux [] r
    else cur.reverse :: matchRunsAux [] r

/-- Model of s.match(/[\d,\.]+/g): the list of maximal runs of characters in
the class, left to right (empty list plays the role of the null result). -/
def matchRuns (cs : List Char) : List (List Char) :=
  matchRunsAux [] cs

/-- The string handed to parseFloat by extractNumbers: the runs joined and
commas stripped; none when the match returned null. -/
def extractNumbersText (t : String) : Option String :=
  match matchRuns t.data with
  | [] => none
  | runs => some (stripCommas (String.mk runs.flatten))

/-- Model of extractNumbers(text): null on empty/absent input, otherwise
normalize Arabic numerals, match all digit/comma/period runs, join them,
strip commas, parseFloat; null when no run was found or the parse is NaN. -/
def extractNumbers : Option String → Option Rat
  | none => none
  | some t =>
    if t = "" then none
    else
      match convertArabicNumerals (some t) with
      | none => none -- unreachable: the input is nonempty
      | some w =>
        match extractNumbersText w with
        | none => none
        | some numStr => jsParseFloat numStr

/-! ## src/utils/utils.js : formatRating -/

/-- Model of formatRating(rating): null and undefined give null; a number is
rounded to one decimal (NaN stays NaN since Number(NaN.toFixed(1)) is NaN);
a string is parsed after commas become periods, null when that parse is NaN. -/
def formatRating : JSVal → Option JSNum
  | .null => none
  | .undef => none
  | .num x => some (.val (toFixed1 x))
  | .nan => some .nan
  | .str s =>
    match jsParseFloat (commaToDot s) with
    | none => none
    | some v => some (.val (toFixed1 v))

/-! ## src/utils/utils.js : price aggregation -/

/-- Whether a value survives the filter
store.current_price !== null && store.current_price !== undefined. -/
def isDefined : JSVal → Bool
  | .null => false
  | .undef => false
  | _ => true

/-- The map step: a number is kept, anything else goes through
parseFloat(String(v).replace(/,/g, "")).  String(null) and String(undefined)
parse to NaN, matching the JavaScript coercions. -/
def toNumber : JSVal → JSNum
  | .num x => .val x
  | .nan => .nan
  | .str s =>
    match jsParseFloat (stripCommas s) with
    | none => .nan
    | some x => .val x
  | .null => .nan
  | .undef => .nan

/-- The validPrices array common to the three aggregation functions. -/
def validPrices (stores : List JSVal) : List JSNum :=
  (stores.filter isDefined).map toNumber

/-- Math.min on two JavaScript numbers (NaN propagates). -/
def jsnMin : JSNum → JSNum → JSNum
  | .val a, .val b => .val (min a b)
  | _, _ => .nan

/-- Math.max on two JavaScript numbers (NaN propagates). -/
def jsnMax : JSNum → JSNum → JSNum
  | .val a, .val b => .val (max a b)
  | _, _ => .nan

/-- Addition on JavaScript numbers (NaN propagates). -/
def jsnAdd : JSNum → JSNum → JSNum
  | .val a, .val b => .val (a + b)
  | _, _ => .nan

/-- Model of getLowestPrice(stores): null for an empty array or when no
defined price remains, otherwise Math.min over the coerced prices. -/
def getLowestPrice (stores : List JSVal) : Option JSNum :=
  if stores.isEmpty then none
  else
    match validPrices stores with
    | [] => none
    | v :: vs => some (vs.foldl jsnMin v)

/-- Model of getHighestPrice(stores). -/
def getHighestPrice (stores : List JSVal) : Option JSNum :=
  if stores.isEmpty then none
  else
    match validPrices stores with
    | [] => none
    | v :: vs => some (vs.foldl jsnMax v)

/-- Model of getAveragePrice(stores): the reduce-sum over validPrices divided
by its length, then Number((..).toFixed(2)); NaN stays NaN. -/
def getAveragePrice (stores : List JSVal) : Option JSNum :=
  if stores.isEmpty then none
  else
    match validPrices stores with
    | [] => none
    | v :: vs =>
      match (v :: vs).foldl jsnAdd (.val 0) with
      | .nan => some .nan
      | .val s => some (.val (toFixed2 (s / ((v :: vs).length : Rat))))

/-! ## src/stores/google.js : per-store selector cascades

A cheerio store container is modelled by three oracle functions, one per
query shape the source uses:
find sel is container.find(sel).first() — none when no element matches,
otherwise the raw text of the first match; text sel is
container.find(sel).text() (the empty string when nothing matches);
attrHref sel is container.find(sel).attr("href"). -/

structure Container where
  find : String → Option String
  text : String → String
  attrHref : String → Option String

/-- The current-price loop: the first selector whose query matches any
element wins, and its trimmed text is taken even when empty. -/
def firstSelectorText (find : String → Option String) : List String → Option String
  | [] => none
  | sel :: rest =>
    match find sel with
    | some t => some (jsTrim t)
    | none => firstSelectorText find rest

/-- The original-price loop: every matching selector overwrites the
accumulator with its trimmed text, and the loop breaks at the first
non-empty text. -/
def origSelectorText (find : String → Option String) : Option String → List String → Option String
  | acc, [] => acc
  | acc, sel :: rest =>
    match find sel with
    | some t =>
      let tt := jsTrim t
      if tt ≠ "" then some tt else origSelectorText find (some tt) rest
    | none => origSelectorText find acc rest

/-- JavaScript a || b on number-or-null values: null and 0 are falsy. -/
def jsOrNum (a b : Option Rat) : Option Rat :=
  match a with
  | none => b
  | some x => if x = 0 then b else some x

/-- JavaScript s || null on a string. -/
def strOrNull (s : String) : Option String :=
  if s = "" then none else some s

/-- JavaScript a || b where a is an optional string and b a string
(used for options.category || detected). -/
def jsOrStr (a : Option String) (b : String) : String :=
  match a with
  | none => b
  | some s => if s = "" then b else s

/-- storeData.current_price: extractNumbers over the current-price cascade. -/
def currentPriceOf (c : Container) (sels : List String) : Option Rat :=
  extractNumbers (firstSelectorText c.find sels)

/-- storeData.original_price: extractNumbers over the original-price cascade,
falling back to current_price through JavaScript ||. -/
def originalPriceOf (c : Container) (sels : List String) (current : Option Rat) : Option Rat :=
  jsOrNum (extractNumbers (origSelectorText c.find none sels)) current

/-! ## src/stores/google.js : brand and category classification

The source tables are JavaScript regular expressions; they are embedded as a
small pattern AST (literals, single-character classes, star over a character
class, sequencing, alternation, option) with regexp test search semantics. -/

/-- A single-character class as used in the source patterns. -/
inductive CharCls where
  | digit : CharCls
  | ws : CharCls
  | range (lo hi : Char) : CharCls
  | set (cs : List Char) : CharCls

/-- Membership in a character class (\d, \s, [a-s], [...]). -/
def CharCls.memb : CharCls → Char → Bool
  | .digit, c => c.isDigit
  | .ws, c => isJsWhitespace c
  | .range lo hi, c => lo ≤ c && c ≤ hi
  | .set cs, c => cs.contains c

/-- Pattern AST covering all regex constructs the classifier tables use. -/
inductive Pat where
  | lit (s : String) : Pat
  | litCI (s : String) : Pat
  | one (cc : CharCls) : Pat
  | star (cc : CharCls) : Pat
  | seq (p q : Pat) : Pat
  | alt (p q : Pat) : Pat
  | opt (p : Pat) : Pat

/-- All remainders after consuming zero or more class characters. -/
def runStar (cc : CharCls) : List Char → List (List Char)
  | [] => [[]]
  | c :: r => (c :: r) :: (if cc.memb c then runStar cc r else [])

/-- All remainders after matching the pattern at the head of the input. -/
def Pat.run : Pat → List Char → List (List Char)
  | .lit l, s => if l.data.isPrefixOf s then [s.drop l.data.length] else []
  | .litCI l, s =>
    if (l.data.map Char.toLower).isPrefixOf (s.map Char.toLower) then [s.drop l.data.length]
    else []
  | .one cc, s =>
    match s with
    | [] => []
    | c :: r => if cc.memb c then [r] else []
  | .star cc, s => runStar cc s
  | .seq p q, s => (p.run s).flatMap q.run
  | .alt p q, s => p.run s ++ q.run s
  | .opt p, s => s :: p.run s

/-- Whether the pattern matches starting exactly here. -/
def Pat.matchesAt (p : Pat) (s : List Char) : Bool :=
  !(p.run s).isEmpty

/-- Unanchored regexp search: try every start position. -/
def searchFrom (p : Pat) : List Char → Bool
  | [] => p.matchesAt []
  | c :: r => p.matchesAt (c :: r) || searchFrom p r

/-- A source regex: an optional leading anchor and a pattern. -/
structure JsRegex where
  anchored : Bool
  pat : Pat

/-- Model of regex.test(s). -/
def JsRegex.test (re : JsRegex) (s : String) : Bool :=
  if re.anchored then re.pat.matchesAt s.data else searchFrom re.pat s.data

/-- Left fold of alternation, for writing multi-branch source regexes. -/
def Pat.anyOf (p : Pat) (ps : List Pat) : Pat :=
  ps.foldl Pat.alt p

/-- An unanchored alternation of plain literals. -/
def reLits (x : String) (xs : List String) : JsRegex :=
  ⟨false, Pat.anyOf (.lit x) (xs.map Pat.lit)⟩

/-- The regex fragment \d+. -/
def pDigits : Pat := .seq (.one .digit) (.star .digit)

/-- The regex fragment \s*. -/
def pWs : Pat := .star .ws

/-- The ordered brand table of detectBrandFromName, one entry per brand with
its ordered regex list, in source order. -/
def brandPatterns : List (String × List JsRegex) := [
  ("Apple", [
    reLits "iphone" ["آيفون", "أيفون", "ايفون"],
    reLits "ipad" ["آيباد", "أيباد", "ايباد"],
    reLits "macbook" ["ماك بوك", "ماكبوك"],
    reLits "apple watch" ["ساعة ابل", "ساعة آبل", "أبل واتش"],
    reLits "airpods" ["ايربودز", "إيربودز"],
    ⟨true, Pat.anyOf (.lit "apple ") [.lit "أبل ", .lit "آبل ", .lit "ابل "]⟩]),
  ("Samsung", [
    reLits "galaxy" ["جالاكسي", "جالكسي"],
    reLits "samsung" ["سامسونج", "سامسونغ"],
    ⟨false, .alt (.seq (.lit "note") (.seq pWs pDigits))
                 (.seq (.lit "نوت") (.seq pWs pDigits))⟩,
    ⟨false, .alt (.seq (.lit "s") (.seq pWs (.seq pDigits
                   (.seq pWs (.opt (.alt (.lit "plus") (.lit "ultra")))))))
                 (.seq (.lit "اس") (.seq pWs pDigits))⟩,
    ⟨false, .alt (.seq (.lit "tab") (.seq pWs (.seq (.one (.range 'a' 's')) (.star .digit))))
                 (.seq (.lit "تاب") (.seq pWs (.seq (.one (.range 'a' 's')) (.star .digit))))⟩]),
  ("Google", [
    reLits "pixel" ["بيكسل"],
    reLits "google" ["جوجل"]]),
  ("Xiaomi", [
    reLits "xiaomi" ["شاومي", "شياومي"],
    reLits "redmi" ["ريدمي"],
    reLits "poco" ["بوكو"],
    ⟨false, .alt (.seq (.lit "mi") (.seq pWs pDigits))
                 (.seq (.lit "مي") (.seq pWs pDigits))⟩]),
  ("Huawei", [
    reLits "huawei" ["هواوي", "هواويه"],
    ⟨false, .alt (.seq (.lit "mate") (.seq pWs pDigits))
                 (.seq (.lit "ميت") (.seq pWs pDigits))⟩,
    ⟨false, .alt (.seq (.lit "p") (.seq pWs (.seq pDigits
                   (.seq pWs (.opt (.alt (.lit "pro") (.lit "lite")))))))
                 (.seq (.lit "بي") (.seq pWs pDigits))⟩]),
  ("Sony", [
    reLits "sony" ["سوني"],
    reLits "xperia" ["اكسبيريا", "إكسبيريا"],
    reLits "playstation" ["بلايستيشن", "بلاي ستيشن", "بلاي ستيشن"]]),
  ("LG", [
    ⟨true, .alt (.seq (.lit "lg") (.one .ws)) (.seq (.lit "ال جي") (.one .ws))⟩,
    ⟨false, .alt (.seq (.lit "lg") (.seq pWs (.seq (.opt (.one (.range 'a' 'z'))) pDigits)))
                 (.seq (.lit "ال جي") (.seq pWs (.seq (.opt (.one (.range 'a' 'z'))) pDigits)))⟩]),
  ("Nokia", [
    reLits "nokia" ["نوكيا"]]),
  ("OnePlus", [
    reLits "oneplus" ["ون بلس", "وان بلس"]]),
  ("Oppo", [
    reLits "oppo" ["أوبو", "اوبو"],
    ⟨false, .alt (.seq (.lit "reno") (.seq pWs pDigits))
                 (.seq (.lit "رينو") (.seq pWs pDigits))⟩,
    ⟨false, .alt (.seq (.lit "find") (.seq pWs (.seq (.lit "x") (.star .digit))))
                 (.seq (.lit "فايند") (.seq pWs (.seq (.one (.set ['إ', 'ك', 'س'])) (.star .digit))))⟩]),
  ("Vivo", [
    reLits "vivo" ["فيفو"]]),
  ("Realme", [
    reLits "realme" ["ريلمي", "ريلمى"]])]

/-- Model of detectBrandFromName: Unknown for an absent or empty name,
otherwise the first brand, in table order, one of whose regexes matches the
lowercased name; Unknown when none matches. -/
def detectBrandFromName : Option String → String
  | none => "Unknown"
  | some n =>
    if n = "" then "Unknown"
    else
      let lower := jsToLowerCase n
      match brandPatterns.find? (fun bp => bp.2.any (fun re => re.test lower)) with
      | some bp => bp.1
      | none => "Unknown"

/-- The high-priority laptop regexes of detectCategoryFromName, checked
before the general category table. -/
def laptopRegexes : List JsRegex := [
  reLits "macbook" ["ماك بوك", "ماكبوك"],
  reLits "laptop" ["لابتوب", "نوت بوك"],
  reLits "notebook" ["نوتبوك"],
  reLits "chromebook" ["كروم بوك"],
  reLits "thinkpad" ["ثينك باد"],
  reLits "surface book" ["سيرفس"],
  reLits "dell xps" ["ديل"],
  reLits "hp spectre" ["إتش بي"]]

/-- The iPad/tablet regexes, checked after laptops and before the table. -/
def tabletRegexes : List JsRegex := [
  reLits "ipad" ["آيباد", "أيباد", "ايباد"],
  reLits "tablet" ["تابلت", "لوحي"],
  reLits "galaxy tab" ["جالاكسي تاب"],
  reLits "mi pad" ["شاومي باد"]]

/-- The general category table of detectCategoryFromName, in source order. -/
def categoryPatterns : List (String × List JsRegex) := [
  ("phones", [
    reLits "iphone" ["آيفون", "أيفون", "ايفون"],
    ⟨false, Pat.anyOf (.seq (.lit "galaxy") (.seq pWs (.seq (.opt (.one (.range 'a' 'z'))) pDigits)))
                      [.lit "جالاكسي", .lit "جالكسي"]⟩,
    ⟨false, .alt (.seq (.lit "pixel") (.seq pWs pDigits)) (.lit "بيكسل")⟩,
    reLits "redmi" ["ريدمي"],
    reLits "poco" ["بوكو"],
    reLits "هاتف" ["موبايل", "جوال", "تليفون"],
    reLits "smartphone" ["phone", "mobile", "جوال"],
    reLits "xiaomi" ["شاومي", "هواوي"],
    ⟨false, Pat.anyOf (.seq pDigits (.lit "g")) [.lit "5g", .lit "4g"]⟩,
    reLits "128gb" ["256gb", "512gb", "128 جيجا", "256 جيجا"],
    ⟨false, .alt (.seq (.lit "pro") (.seq pWs (.lit "max")))
                 (.seq (.lit "برو") (.seq pWs (.lit "ماكس")))⟩,
    ⟨false, .litCI "faceTime"⟩]),
  ("audio", [
    reLits "airpods" ["ايربودز", "إيربودز"],
    reLits "headphone" ["سماعة رأس", "سماعات"],
    reLits "earbuds" ["سماعات أذن"],
    reLits "speaker" ["مكبر صوت", "سبيكر"],
    reLits "bose" ["بوز"],
    reLits "sony wh" ["سوني"],
    reLits "homepod" ["هوم بود"],
    reLits "echo dot" ["إيكو دوت"]]),
  ("watches", [
    reLits "watch" ["ساعة", "ووتش"],
    reLits "apple watch" ["ساعة ابل", "أبل واتش"],
    reLits "galaxy watch" ["ساعة جالاكسي"],
    reLits "mi band" ["مي باند"],
    reLits "fitbit" ["فيت بيت"],
    reLits "garmin" ["جارمن"],
    reLits "الساعة الذكية" ["smartwatch"]]),
  ("tvs", [
    reLits "tv" ["تلفزيون", "تلفاز", "شاشة"],
    ⟨false, .alt (.seq pDigits (.seq pWs (.lit "inch tv")))
                 (.seq pDigits (.seq pWs (.lit "بوصة")))⟩,
    reLits "oled" ["qled", "mini led"],
    reLits "smart tv" ["التلفزيون الذكي"]]),
  ("gaming", [
    reLits "playstation" ["بلايستيشن", "ps5", "ps4"],
    reLits "xbox" ["إكس بوكس", "اكس بوكس"],
    reLits "nintendo switch" ["نينتندو"],
    reLits "gaming" ["الألعاب", "للألعاب"],
    reLits "controller" ["يد التحكم", "جويستيك"]]),
  ("cameras", [
    reLits "camera" ["كاميرا"],
    reLits "dslr" ["digital camera"],
    reLits "canon eos" ["كانون"],
    reLits "nikon" ["نيكون"],
    ⟨false, .alt (.seq (.lit "sony a") pDigits) (.lit "سوني")⟩,
    reLits "gopro" ["جو برو"]])]

/-- Model of detectCategoryFromName: other for an absent or empty name;
laptops and tablets are checked first (explicit priority), then the general
table first-match-wins; other when nothing matches. -/
def detectCategoryFromName : Option String → String
  | none => "other"
  | some n =>
    if n = "" then "other"
    else
      let lower := jsToLowerCase n
      if laptopRegexes.any (fun re => re.test lower) then "laptops"
      else if tabletRegexes.any (fun re => re.test lower) then "tablets"
      else
        match categoryPatterns.find? (fun cp => cp.2.any (fun re => re.test lower)) with
        | some cp => cp.1
        | none => "other"

/-! ## src/stores/google.js : the store loop, reviews, rating distribution -/

/-- One scraped store offer, field for field as in the source storeData. -/
structure StoreData where
  store : Option String
  current_price : Option Rat
  original_price : Option Rat
  rating : Option JSNum
  free_delivery : Bool
  product_title : Option String
  product_url : Option String
deriving DecidableEq

/-- The selector configuration for store containers (googleSelectors.stores
is configuration read from src/config/selectors.js; its concrete strings are
opaque to the logic modelled here). -/
structure StoreSelectors where
  container : String
  name : String
  currentPrice : List String
  originalPrice : List String
  rating : String
  delivery : String
  productTitle : String
  productUrl : String

/-- The selector configuration for product-level queries. -/
structure ProductSelectors where
  images : String
  type : String

/-- googleSelectors, as imported by src/stores/google.js. -/
structure GoogleSelectors where
  stores : StoreSelectors
  product : ProductSelectors

/-- One iteration of the storeContainers.each loop of scrapeGoogleShopping. -/
def scrapeStore (sel : StoreSelectors) (c : Container) : StoreData :=
  let store := strOrNull (jsTrim (c.text sel.name))
  let current := currentPriceOf c sel.currentPrice
  let original := originalPriceOf c sel.originalPrice current
  let ratingText := jsTrim ((c.find sel.rating).getD "")
  let rating := formatRating (.str ratingText)
  let deliveryText := jsToLowerCase (c.text sel.delivery)
  let freeDelivery :=
    jsIncludes deliveryText "مجاني" || jsIncludes deliveryText "free" ||
    jsIncludes deliveryText "مجانا"
  let title := strOrNull (jsTrim (c.text sel.productTitle))
  let purl :=
    match c.attrHref sel.productUrl with
    | none => none
    | some u => strOrNull u
  ⟨store, current, original, rating, freeDelivery, title, purl⟩

/-- The store object as seen by the price aggregation functions:
current_price is a number or null. -/
def currentPriceVal (sd : StoreData) : JSVal :=
  match sd.current_price with
  | none => .null
  | some x => .num x

/-- A review container, one oracle field per query in scrapeReviews. -/
structure ReviewContainer where
  nameText : String
  hasRatingContainer : Bool
  ratingText : String
  fullText : String
  shortText : String
  sourceText : String

/-- One scraped review. -/
structure ReviewData where
  reviewer_name : Option String
  rating : Option JSNum
  review_text : Option String
  store_source : Option String
deriving DecidableEq

/-- An optional string as the JavaScript value passed to formatRating. -/
def optStrToJSVal : Option String → JSVal
  | none => .null
  | some s => .str s

/-- One iteration of the reviewContainers.each loop. -/
def scrapeReview (c : ReviewContainer) : ReviewData :=
  let name := strOrNull (jsTrim c.nameText)
  let rating :=
    if c.hasRatingContainer then
      formatRating (optStrToJSVal (convertArabicNumerals (some (jsTrim c.ratingText))))
    else none
  let fullT := jsTrim c.fullText
  let reviewText := if fullT ≠ "" then fullT else jsTrim c.shortText
  let store_source := strOrNull (jsReplaceFirst (jsTrim c.sourceText) "مراجعة من " "")
  ⟨name, rating, strOrNull reviewText, store_source⟩

/-- Model of scrapeReviews: parse every container, keep only reviews whose
reviewer name is truthy. -/
def scrapeReviews (cs : List ReviewContainer) : List ReviewData :=
  cs.foldl (fun acc c =>
    let r := scrapeReview c
    if r.reviewer_name ≠ none then acc ++ [r] else acc) []

/-- The character class of /[\d,٠-٩]/ used for review counts. -/
def isNumOrArabicDigit (c : Char) : Bool :=
  c.isDigit || c = ',' || ('٠' ≤ c && c ≤ '٩')

/-- Model of s.match(re) without the g flag: the leftmost maximal run of
class characters, none when the match is null. -/
def firstRun (p : Char → Bool) : List Char → Option (List Char)
  | [] => none
  | c :: r => if p c then some (c :: r.takeWhile p) else firstRun p r

/-- Match of /width:(\d+)%/ at the start of the input: the captured digits. -/
def widthPercentAt (cs : List Char) : Option Nat :=
  if "width:".data.isPrefixOf cs then
    let rest := cs.drop 6
    let ds := rest.takeWhile Char.isDigit
    if ds.isEmpty then none
    else
      match rest.drop ds.length with
      | '%' :: _ => some (digitsToNat ds)
      | _ => none
  else none

/-- Leftmost match of /width:(\d+)%/ anywhere in the style attribute. -/
def matchWidthPercent : List Char → Option Nat
  | [] => none
  | c :: r =>
    match widthPercentAt (c :: r) with
    | some n => some n
    | none => matchWidthPercent r

/-- A distribution value: percentage (from the style width) and review count
(parseInt result, possibly NaN). -/
structure DistEntry where
  percentage : Option Int
  review_count : Option JSInt
deriving DecidableEq

/-- One row container of the .lsA2Je .liSKFd scan; each field is the
eq(i)-indexed query the source performs — starText i is
find of QGLeic at i (empty when absent), percentStyle i is the batFvf
element at i (outer none when absent, inner value its style attribute),
countText i is the KCjXZe element text at i (none when absent). -/
structure DistRow where
  starText : Nat → String
  percentStyle : Nat → Option (Option String)
  countText : Nat → Option String

/-- JavaScript object assignment distribution[key] = value: overwrite the
existing key in place or append. -/
def assocUpdate (d : List (JSInt × DistEntry)) (k : JSInt) (v : DistEntry) :
    List (JSInt × DistEntry) :=
  match d with
  | [] => [(k, v)]
  | (k1, v1) :: t => if k1 = k then (k, v) :: t else (k1, v1) :: assocUpdate t k v

/-- The parseInt applied to a matched count run: convert Arabic numerals
(the run is nonempty, so the conversion never returns null) and strip commas. -/
def parseCountRun (run : List Char) : JSInt :=
  toJSInt (jsParseInt (stripCommas ((convertArabicNumerals (some (String.mk run))).getD "")))

/-- One iteration of the outer rating-distribution scan: the inner loop over
star indexes 0..4, threading the distribution object.  When the percentage
element exists but carries no style attribute, styleAttr.match raises a
TypeError, modelled by throw. -/
def processDistRow (dist0 : List (JSInt × DistEntry)) (row : DistRow) :
    Except Unit (List (JSInt × DistEntry)) :=
  (List.range 5).foldlM (fun dist i => do
    let starValue := jsTrim (row.starText i)
    if starValue = "" then pure dist
    else do
      let percentage : Option Int ←
        match row.percentStyle i with
        | none => pure none
        | some none => throw ()
        | some (some style) => pure ((matchWidthPercent style.data).map (fun n => (n : Int)))
      let reviewCount : Option JSInt :=
        match row.countText i with
        | none => none
        | some txt =>
          match firstRun isNumOrArabicDigit (jsTrim txt).data with
          | none => none
          | some run => some (parseCountRun run)
      if percentage.isSome || reviewCount.isSome then
        let key := toJSInt (jsParseInt ((convertArabicNumerals (some starValue)).getD ""))
        pure (assocUpdate dist key ⟨percentage, reviewCount⟩)
      else pure dist) dist0

/-- The rating-distribution aggregate. -/
structure RatingDistribution where
  average_rating : Option JSNum
  total_reviews : Option JSInt
  distribution : List (JSInt × DistEntry)
deriving DecidableEq

/-- The parsed document, as the oracle of every query scrapeGoogleShopping
performs: queryContainers sel is the container list of a selector,
queryAttrSrcs sel the src attributes of image matches, queryTexts sel the
texts of type matches; the remaining fields are the fixed-selector queries
of scrapeReviews and scrapeRatingDistribution. -/
structure Doc where
  queryContainers : String → List Container
  queryAttrSrcs : String → List (Option String)
  queryTexts : String → List String
  reviewContainers : List ReviewContainer
  avgRatingText : Option String
  totalReviewsText : Option String
  distRows : List DistRow

/-- Model of scrapeRatingDistribution. -/
def scrapeRatingDistribution (doc : Doc) : Except Unit RatingDistribution := do
  let average_rating :=
    match doc.avgRatingText with
    | none => none
    | some t => formatRating (optStrToJSVal (convertArabicNumerals (some (jsTrim t))))
  let total_reviews :=
    match doc.totalReviewsText with
    | none => none
    | some t =>
      match firstRun isNumOrArabicDigit (jsTrim t).data with
      | none => none
      | some run => some (parseCountRun run)
  let dist ← doc.distRows.foldlM processDistRow []
  pure ⟨average_rating, total_reviews, dist⟩

/-- The photoLinks collection loop: push each src while fewer than 4 links
are collected, skipping falsy and duplicate values. -/
def collectPhotoLinks (srcs : List (Option String)) : List String :=
  srcs.foldl (fun acc src =>
    if acc.length < 4 then
      match src with
      | some u => if u ≠ "" && !acc.contains u then acc ++ [u] else acc
      | none => acc
    else acc) []

/-- The productType loop: the last non-empty trimmed text wins. -/
def lastNonEmptyText (ts : List String) : Option String :=
  ts.foldl (fun acc t =>
    let tt := jsTrim t
    if tt ≠ "" then some tt else acc) none

/-- The options argument of scrapeGoogleShopping. -/
structure ScrapeOptions where
  category : Option String
  brand : Option String

/-- Ambient world state available to the process (clock, randomness).  The
source of scrapeGoogleShopping never reads it; it is threaded through the
model so that independence from it is a meaningful statement. -/
structure WorldEnv where
  timeNow : Nat
  randomSeed : Nat

/-- The structured product record returned by scrapeGoogleShopping, field for
field as in the source return object. -/
structure ProductRecord where
  category : String
  brand : String
  product_name : Option String
  product_type : Option String
  photo_links : List String
  stores : List StoreData
  reviews : List ReviewData
  rating_distribution : RatingDistribution
  source_url : String
  lowestPrice : Option JSNum
  highestPrice : Option JSNum
  averagePrice : Option JSNum
  priceHistory : List Unit
  users : List Unit
deriving DecidableEq

set_option linter.unusedVariables false in
/-- Model of scrapeGoogleShopping($, url, options), step for step along the
source: product name from the first store container, photo links, product
type, category/brand with option precedence, the store loop, reviews, rating
distribution, and the three aggregated prices.  The world environment is
never consulted. -/
def scrapeGoogleShopping (env : WorldEnv) (sels : GoogleSelectors) (doc : Doc)
    (url : String) (options : ScrapeOptions) : Except Unit ProductRecord := do
  let storeContainers := doc.queryContainers sels.stores.container
  let productName :=
    match storeContainers with
    | [] => none
    | c :: _ => strOrNull (jsTrim (c.text sels.stores.productTitle))
  let photoLinks := collectPhotoLinks (doc.queryAttrSrcs sels.product.images)
  let productType := lastNonEmptyText (doc.queryTexts sels.product.type)
  let category := jsOrStr options.category (detectCategoryFromName productName)
  let brand := jsOrStr options.brand (detectBrandFromName productName)
  let stores := storeContainers.map (scrapeStore sels.stores)
  let reviews := scrapeReviews doc.reviewContainers
  let ratingDistribution ← scrapeRatingDistribution doc
  pure ⟨category, brand, productName, productType, photoLinks, stores, reviews,
        ratingDistribution, url,
        getLowestPrice (stores.map currentPriceVal),
        getHighestPrice (stores.map currentPriceVal),
        getAveragePrice (stores.map currentPriceVal),
        [], []⟩

/-! ## src/utils/captchaHandler.js : detectCaptcha

The live page is modelled by its URL, a selector oracle (hasSel sel is
whether page or document querySelector finds an element for sel) and the
body inner text. -/

structure CPage where
  url : String
  hasSel : String → Bool
  bodyText : String

/-- The very specific CAPTCHA selectors checked through page versions. -/
def captchaSelectors : List String :=
  ["iframe[src*=\"recaptcha\"]",
   "iframe[src*=\"captcha\"]",
   ".g-recaptcha",
   "#captcha",
   "form[action*=\"captcha\"]",
   ".captcha-container"]

/-- The known challenge phrases (English plus two Arabic variants plus two
page-furniture phrases). -/
def captchaPhrases : List String :=
  ["Our systems have detected unusual traffic from your computer network",
   "حركة مرور غير عادية",
   "أنظمتنا اكتشفت حركة مرور غير عادية",
   "This page appears when Google automatically detects requests coming from your computer network",
   "About this page"]

/-- Tier 1: the URL matches a known verification-path substring. -/
def urlIndicatesCaptcha (p : CPage) : Bool :=
  jsIncludes p.url "google.com/sorry/" || jsIncludes p.url "/recaptcha/" ||
  jsIncludes p.url "captcha"

/-- Tier 2: one of the CAPTCHA-specific DOM selectors is present. -/
def hasCaptchaSelector (p : CPage) : Bool :=
  captchaSelectors.any p.hasSel

/-- The first structural marker of the in-page check. -/
def hasStructuralMarkerPre (p : CPage) : Bool :=
  p.hasSel "#recaptcha" || p.hasSel ".recaptcha" || p.hasSel "[action*=\"sorry/index\"]"

/-- The number of distinct challenge phrases included in the body text. -/
def phraseMatchCount (p : CPage) : Nat :=
  captchaPhrases.countP (fun ph => jsIncludes p.bodyText ph)

/-- The final structural marker: the sorry/index form together with the
captcha input. -/
def hasStructuralMarkerPost (p : CPage) : Bool :=
  p.hasSel "form[action*=\"sorry/index\"]" && p.hasSel "input[name=\"captcha\"]"

/-- The page.evaluate body of detectCaptcha: structural marker, then the
two-phrase threshold, then the form+input combination. -/
def isGoogleCaptchaPage (p : CPage) : Bool :=
  hasStructuralMarkerPre p || decide (2 ≤ phraseMatchCount p) || hasStructuralMarkerPost p

/-- Model of detectCaptcha(page): the three tiers, short-circuiting on the
first positive. -/
def detectCaptcha (p : CPage) : Bool :=
  urlIndicatesCaptcha p || hasCaptchaSelector p || isGoogleCaptchaPage p

/-! ## src/scrapper.js : expandSection

The browser interaction of one loop iteration is summarised by an attempt
outcome: the attempt body raised (err), the three-strategy location cascade
found no button and the sufficiency check saw visibleCount items (notFound),
or a button was found, the three-method click cascade succeeded or not, and
the button still exists afterwards (found).  An environment assigns an
outcome to every (1-based) attempt number. -/

inductive AttemptOutcome where
  | err : AttemptOutcome
  | notFound (visibleCount : Nat) : AttemptOutcome
  | found (clickOk : Bool) (stillExists : Bool) : AttemptOutcome

/-- The two sections expandSection is used for. -/
inductive SectionKind where
  | stores : SectionKind
  | reviews : SectionKind
deriving DecidableEq

/-- The sufficiency thresholds: more than 3 stores, more than 2 reviews. -/
def itemsSufficient : SectionKind → Nat → Bool
  | .stores, n => decide (n > 3)
  | .reviews, n => decide (n > 2)

/-- The while loop of expandSection; fuel is structural recursion fuel, at
least maxAttempts minus attempts, which bounds the remaining iterations
(attempts increases by one per iteration under the guard
attempts < maxAttempts); expandLoop_fuel_agnostic below shows the chosen
fuel does not influence the result.  Returns (clickCount, attempts). -/
def expandLoop (env : Nat → AttemptOutcome) (sec : SectionKind)
    (maxClicks maxAttempts : Nat) : Nat → Nat → Nat → Nat × Nat
  | 0, attempts, clickCount => (clickCount, attempts)
  | fuel + 1, attempts, clickCount =>
    if clickCount < maxClicks ∧ attempts < maxAttempts then
      let a := attempts + 1
      match env a with
      | .err =>
        if maxAttempts - 1 ≤ a then (clickCount, a)
        else expandLoop env sec maxClicks maxAttempts fuel a clickCount
      | .notFound visibleCount =>
        if itemsSufficient sec visibleCount then (clickCount, a)
        else if 3 ≤ a then (clickCount, a)
        else expandLoop env sec maxClicks maxAttempts fuel a clickCount
      | .found clickOk stillExists =>
        if clickOk then
          if stillExists then expandLoop env sec maxClicks maxAttempts fuel a (clickCount + 1)
          else (clickCount + 1, a)
        else
          if maxAttempts - 1 ≤ a then (clickCount, a)
          else if stillExists then expandLoop env sec maxClicks maxAttempts fuel a clickCount
          else (clickCount, a)
    else (clickCount, attempts)

/-- Model of expandSection(page, options): maxAttempts is maxClicks + 3,
both counters start at zero.  First component: the returned click count;
second component: the number of loop attempts performed. -/
def expandSection (env : Nat → AttemptOutcome) (sec : SectionKind) (maxClicks : Nat) :
    Nat × Nat :=
  expandLoop env sec maxClicks (maxClicks + 3) (maxClicks + 3) 0 0

/-! ## Helper lemmas -/

lemma jsParseFloat_eq_of_parts {s : String} {p : FloatParts}
    (h : jsParseFloatParts s = some p) :
    jsParseFloat s = some (floatPartsValue p) := by
  simp [jsParseFloat, h]

lemma jsParseFloat_eq_none {s : String}
    (h : jsParseFloatParts s = none) :
    jsParseFloat s = none := by
  simp [jsParseFloat, h]

/-! ## C8 : convertArabicNumerals -/

/-- C8: convertArabicNumerals returns null exactly on empty/absent input; for
every non-empty string it returns the string of equal length obtained by
replacing each of the 12 mapped glyphs (ten Arabic-Indic digits, the Arabic
thousands separator, the Arabic decimal separator) by its Western equivalent
and passing every other character through unchanged. -/
theorem convertArabicNumerals_spec :
    (convertArabicNumerals none = none ∧ convertArabicNumerals (some "") = none) ∧
    (∀ s : String, s ≠ "" →
      convertArabicNumerals (some s) = some (String.mk (s.data.map arabicToWestern)) ∧
      ∀ r : String, convertArabicNumerals (some s) = some r → r.length = s.length) ∧
    (arabicToWestern '٠' = '0' ∧ arabicToWestern '١' = '1' ∧ arabicToWestern '٢' = '2' ∧
     arabicToWestern '٣' = '3' ∧ arabicToWestern '٤' = '4' ∧ arabicToWestern '٥' = '5' ∧
     arabicToWestern '٦' = '6' ∧ arabicToWestern '٧' = '7' ∧ arabicToWestern '٨' = '8' ∧
     arabicToWestern '٩' = '9' ∧ arabicToWestern '٬' = ',' ∧ arabicToWestern '٫' = '.') ∧
    (∀ c : Char, c ∉ arabicGlyphs → arabicToWestern c = c) := by
  refine ⟨⟨rfl, rfl⟩, ?_, by decide, ?_⟩
  · intro s hs
    have he : convertArabicNumerals (some s) = some (String.mk (s.data.map arabicToWestern)) := by
      simp [convertArabicNumerals, hs]
    refine ⟨he, ?_⟩
    intro r hr
    rw [he] at hr
    cases hr
    show (s.data.map arabicToWestern).length = s.data.length
    simp
  · intro c hc
    simp only [arabicGlyphs, List.mem_cons, List.not_mem_nil, or_false, not_or] at hc
    obtain ⟨h0, h1, h2, h3, h4, h5, h6, h7, h8, h9, h10, h11⟩ := hc
    unfold arabicToWestern
    rw [if_neg h0, if_neg h1, if_neg h2, if_neg h3, if_neg h4, if_neg h5, if_neg h6,
        if_neg h7, if_neg h8, if_neg h9, if_neg h10, if_neg h11]

/-- C8 witness: the theorem applied at the concrete input ١٢٣. -/
theorem convertArabicNumerals_spec_witness :
    convertArabicNumerals (some "١٢٣") = some "123" := by
  have h := (convertArabicNumerals_spec.2.1 "١٢٣" (by decide)).1
  rw [h]
  decide

/-! ## C7 : formatRating -/

/-- C7: formatRating maps null/undefined to null, every finite numeric input
to that number rounded to one decimal place (4.678 to 4.7), every string
input to the number parsed after commas become decimal points (4,5 to 4.5),
and every unparseable string to null. -/
theorem formatRating_spec :
    (formatRating .null = none ∧ formatRating .undef = none) ∧
    (∀ x : Rat, formatRating (.num x) = some (.val (toFixed1 x))) ∧
    formatRating (.num (4678/1000)) = some (.val (47/10)) ∧
    (∀ s : String, formatRating (.str s) =
      match jsParseFloat (commaToDot s) with
      | none => none
      | some v => some (.val (toFixed1 v))) ∧
    (∀ s : String, jsParseFloat (commaToDot s) = none → formatRating (.str s) = none) ∧
    formatRating (.str "4,5") = some (.val (9/2)) ∧
    formatRating (.str "abc") = none := by
  refine ⟨⟨rfl, rfl⟩, fun x => rfl, ?_, fun s => rfl, ?_, ?_, ?_⟩
  · have h : toFixed1 (4678/1000) = 47/10 := by
      norm_num [toFixed1, round_eq]
    calc formatRating (.num (4678/1000))
        = some (.val (toFixed1 (4678/1000))) := rfl
      _ = some (.val (47/10)) := by rw [h]
  · intro s h
    show (match jsParseFloat (commaToDot s) with
          | none => none
          | some v => some (JSNum.val (toFixed1 v))) = none
    rw [h]
  · have h1 : commaToDot "4,5" = "4.5" := by decide
    have h2 : jsParseFloatParts "4.5" = some ⟨false, ['4'], ['5'], 0⟩ := by decide
    have hd4 : digitsToNat ['4'] = 4 := by decide
    have hd5 : digitsToNat ['5'] = 5 := by decide
    have hv : floatPartsValue ⟨false, ['4'], ['5'], 0⟩ = 9/2 := by
      simp only [floatPartsValue, hd4, hd5]
      norm_num
    have htf : toFixed1 (9/2) = 9/2 := by norm_num [toFixed1, round_eq]
    show (match jsParseFloat (commaToDot "4,5") with
          | none => none
          | some v => some (JSNum.val (toFixed1 v))) = some (.val (9/2))
    rw [h1, jsParseFloat_eq_of_parts h2, hv]
    show some (JSNum.val (toFixed1 (9/2))) = some (.val (9/2))
    rw [htf]
  · have h1 : commaToDot "abc" = "abc" := by decide
    have h2 : jsParseFloatParts "abc" = none := by decide
    show (match jsParseFloat (commaToDot "abc") with
          | none => none
          | some v => some (JSNum.val (toFixed1 v))) = none
    rw [h1, jsParseFloat_eq_none h2]

/-- C7 witness: the universally quantified parts applied at concrete inputs. -/
theorem formatRating_spec_witness :
    formatRating (.num 2) = some (.val (toFixed1 2)) ∧ formatRating (.str "xy") = none := by
  constructor
  · exact formatRating_spec.2.1 2
  · exact formatRating_spec.2.2.2.2.1 "xy" (by decide)

/-! ## C10 : formatRating on NaN and finite numbers -/

/-- C10: the null-on-invalid guarantee of formatRating holds only for
string, null and undefined inputs: the numeric input NaN produces NaN
rather than null, and every finite numeric input produces a number, never
null. -/
theorem formatRating_nan_behavior :
    formatRating .nan = some .nan ∧
    (∀ x : Rat, ∃ y : Rat, formatRating (.num x) = some (.val y)) :=
  ⟨rfl, fun x => ⟨toFixed1 x, rfl⟩⟩

/-! ## C4 : detectCaptcha phrase threshold -/

/-- C4: on a page whose URL matches no verification-path substring, with none
of the CAPTCHA-specific DOM selectors and no structural marker, detectCaptcha
returns false when exactly one known challenge phrase occurs in the page text
and true when at least two distinct phrases occur. -/
theorem detectCaptcha_phrase_threshold :
    ∀ p : CPage,
      urlIndicatesCaptcha p = false →
      hasCaptchaSelector p = false →
      hasStructuralMarkerPre p = false →
      hasStructuralMarkerPost p = false →
      (phraseMatchCount p = 1 → detectCaptcha p = false) ∧
      (2 ≤ phraseMatchCount p → detectCaptcha p = true) := by
  intro p hurl hsel hpre hpost
  constructor
  · intro hcount
    simp [detectCaptcha, isGoogleCaptchaPage, hurl, hsel, hpre, hpost, hcount]
  · intro hcount
    simp [detectCaptcha, isGoogleCaptchaPage, hurl, hsel, hpre, hpost, hcount]

/-- C4 witness: a page containing only the phrase About this page is not
flagged; a page also containing an Arabic challenge phrase is flagged. -/
theorem detectCaptcha_phrase_threshold_witness :
    detectCaptcha ⟨"", fun _ => false, "About this page"⟩ = false ∧
    detectCaptcha ⟨"", fun _ => false,
      "About this page حركة مرور غير عادية"⟩ = true := by
  constructor
  · exact (detectCaptcha_phrase_threshold ⟨"", fun _ => false, "About this page"⟩
      (by decide) (by decide) (by decide) (by decide)).1 (by decide)
  · exact (detectCaptcha_phrase_threshold ⟨"", fun _ => false,
      "About this page حركة مرور غير عادية"⟩
      (by decide) (by decide) (by decide) (by decide)).2 (by decide)

/-! ## C9 : scrapeGoogleShopping is a pure function of its inputs -/

/-- C9: scrapeGoogleShopping depends only on the document tree, the selector
configuration, the URL and the options: its result is identical for any two
ambient world states, so two calls on identical inputs produce identical
records. -/
theorem scrapeGoogleShopping_deterministic :
    ∀ (e1 e2 : WorldEnv) (sels : GoogleSelectors) (doc : Doc) (url : String)
      (opts : ScrapeOptions),
      scrapeGoogleShopping e1 sels doc url opts = scrapeGoogleShopping e2 sels doc url opts :=
  fun _ _ _ _ _ _ => rfl

/-! ## C6 : extractNumbers -/

lemma matchRunsAux_flatten (cs : List Char) :
    ∀ cur, (matchRunsAux cur cs).flatten = cur.reverse ++ cs.filter isNumRunChar := by
  induction cs with
  | nil =>
    intro cur
    by_cases h : cur.isEmpty
    · have : cur = [] := by simpa using h
      simp [matchRunsAux, h, this]
    · simp [matchRunsAux, h]
  | cons c r ih =>
    intro cur
    by_cases h : isNumRunChar c
    · simp [matchRunsAux, h, ih (c :: cur), List.filter_cons]
    · by_cases hc : cur.isEmpty
      · have : cur = [] := by simpa using hc
        simp [matchRunsAux, h, hc, this, ih [], List.filter_cons]
      · simp [matchRunsAux, h, hc, ih [], List.filter_cons]

lemma matchRuns_flatten (cs : List Char) :
    (matchRuns cs).flatten = cs.filter isNumRunChar := by
  simpa using matchRunsAux_flatten cs []

lemma matchRunsAux_ne_nil (cs : List Char) :
    ∀ cur, cur ≠ [] → matchRunsAux cur cs ≠ [] := by
  induction cs with
  | nil =>
    intro cur hcur
    have : cur.isEmpty = false := by simpa using hcur
    simp [matchRunsAux, this]
  | cons c r ih =>
    intro cur hcur
    by_cases h : isNumRunChar c
    · simpa [matchRunsAux, h] using ih (c :: cur) (by simp)
    · have : cur.isEmpty = false := by simpa using hcur
      simp [matchRunsAux, h, this]

lemma matchRuns_eq_nil_iff (cs : List Char) :
    matchRuns cs = [] ↔ cs.any isNumRunChar = false := by
  induction cs with
  | nil => simp [matchRuns, matchRunsAux]
  | cons c r ih =>
    by_cases h : isNumRunChar c
    · constructor
      · intro hnil
        exact absurd hnil (by
          simpa [matchRuns, matchRunsAux, h] using matchRunsAux_ne_nil r [c] (by simp))
      · intro hany
        simp [h] at hany
    · simpa [matchRuns, matchRunsAux, h] using ih

lemma extractNumbers_eval {t w n : String} (ht : t ≠ "")
    (hconv : convertArabicNumerals (some t) = some w)
    (htext : extractNumbersText w = some n) :
    extractNumbers (some t) = jsParseFloat n := by
  simp only [extractNumbers]
  rw [if_neg ht, hconv]
  show (match extractNumbersText w with
        | none => none
        | some numStr => jsParseFloat numStr) = jsParseFloat n
  rw [htext]

lemma extractNumbers_eval_none {t w : String} (ht : t ≠ "")
    (hconv : convertArabicNumerals (some t) = some w)
    (htext : extractNumbersText w = none) :
    extractNumbers (some t) = none := by
  simp only [extractNumbers]
  rw [if_neg ht, hconv]
  show (match extractNumbersText w with
        | none => none
        | some numStr => jsParseFloat numStr) = none
  rw [htext]

lemma jsParseFloat_val {s : String} {p : FloatParts} {x : Rat}
    (hp : jsParseFloatParts s = some p) (hv : floatPartsValue p = x) :
    jsParseFloat s = some x := by
  rw [jsParseFloat_eq_of_parts hp, hv]

/-- C6: extractNumbers normalizes localized numerals, matches all runs of
digit/comma/period characters, concatenates them, strips commas and parses
the result with parseFloat; it returns null exactly when the input is
empty/absent, no run exists, or the parse is NaN.  Concatenating the maximal
runs equals filtering the class characters, so the result on a non-empty
input is parseFloat over the comma-stripped class characters of the
normalized text whenever a class character exists, and null otherwise. -/
theorem extractNumbers_spec :
    (extractNumbers none = none ∧ extractNumbers (some "") = none) ∧
    (∀ t : String, t ≠ "" →
      extractNumbers (some t) =
        (if (t.data.map arabicToWestern).any isNumRunChar = true then
          jsParseFloat (stripCommas (String.mk ((t.data.map arabicToWestern).filter isNumRunChar)))
        else none)) ∧
    extractNumbers (some "١٢٣") = some 123 ∧
    extractNumbers (some "1,234.5 ر.س") = some (2469/2) ∧
    extractNumbers (some "no digits") = none := by
  refine ⟨⟨rfl, by decide⟩, ?_, ?_, ?_, ?_⟩
  · intro t ht
    have hconv : convertArabicNumerals (some t) = some (String.mk (t.data.map arabicToWestern)) := by
      simp [convertArabicNumerals, ht]
    by_cases hany : (t.data.map arabicToWestern).any isNumRunChar = true
    · rw [if_pos hany]
      have hne : matchRuns (t.data.map arabicToWestern) ≠ [] := by
        intro hnil
        rw [matchRuns_eq_nil_iff] at hnil
        rw [hnil] at hany
        exact absurd hany (by simp)
      cases hmr : matchRuns (t.data.map arabicToWestern) with
      | nil => exact absurd hmr hne
      | cons r0 rs =>
        have htext : extractNumbersText (String.mk (t.data.map arabicToWestern)) =
            some (stripCommas (String.mk (r0 :: rs).flatten)) := by
          simp only [extractNumbersText, hmr]
        rw [extractNumbers_eval ht hconv htext, ← hmr, matchRuns_flatten]
    · rw [if_neg hany]
      have hnil : matchRuns (t.data.map arabicToWestern) = [] :=
        (matchRuns_eq_nil_iff _).mpr (by simpa using hany)
      have htext : extractNumbersText (String.mk (t.data.map arabicToWestern)) = none := by
        simp only [extractNumbersText]
        rw [hnil]
      exact extractNumbers_eval_none ht hconv htext
  · have hconv : convertArabicNumerals (some "١٢٣") = some "123" := by decide
    have htext : extractNumbersText "123" = some "123" := by decide
    rw [extractNumbers_eval (by decide) hconv htext]
    have hp : jsParseFloatParts "123" = some ⟨false, "123".data, [], 0⟩ := by decide
    have hd : digitsToNat "123".data = 123 := by decide
    have hd0 : digitsToNat ([] : List Char) = 0 := rfl
    exact jsParseFloat_val hp (by simp only [floatPartsValue, hd, hd0]; norm_num)
  · have hconv : convertArabicNumerals (some "1,234.5 ر.س") = some "1,234.5 ر.س" := by decide
    have htext : extractNumbersText "1,234.5 ر.س" = some "1234.5." := by decide
    rw [extractNumbers_eval (by decide) hconv htext]
    have hp : jsParseFloatParts "1234.5." = some ⟨false, "1234".data, "5".data, 0⟩ := by decide
    have hd1 : digitsToNat "1234".data = 1234 := by decide
    have hd2 : digitsToNat "5".data = 5 := by decide
    refine jsParseFloat_val hp ?_
    simp only [floatPartsValue, hd1, hd2]
    norm_num
  · have hconv : convertArabicNumerals (some "no digits") = some "no digits" := by decide
    have htext : extractNumbersText "no digits" = none := by decide
    exact extractNumbers_eval_none (by decide) hconv htext

/-- C6 witness: the normal-form description applied at a concrete input. -/
theorem extractNumbers_spec_witness :
    extractNumbers (some "x5") =
      jsParseFloat (stripCommas (String.mk (("x5".data.map arabicToWestern).filter isNumRunChar))) := by
  have h := extractNumbers_spec.2.1 "x5" (by decide)
  rw [h, if_pos (by decide)]

/-! ## C2 : per-store price-selector cascades -/

lemma firstSelectorText_first_match (find : String → Option String)
    (pre post : List String) (sel t : String)
    (hpre : ∀ s2 ∈ pre, find s2 = none) (hfind : find sel = some t) :
    firstSelectorText find (pre ++ sel :: post) = some (jsTrim t) := by
  induction pre with
  | nil =>
    simp only [List.nil_append, firstSelectorText]
    rw [hfind]
  | cons p ps ih =>
    have hp : find p = none := hpre p (by simp)
    simp only [List.cons_append, firstSelectorText]
    rw [hp]
    exact ih (fun s2 hs2 => hpre s2 (by simp [hs2]))

lemma firstSelectorText_none (find : String → Option String) (sels : List String)
    (h : ∀ s2 ∈ sels, find s2 = none) :
    firstSelectorText find sels = none := by
  induction sels with
  | nil => rfl
  | cons p ps ih =>
    have hp : find p = none := h p (by simp)
    simp only [firstSelectorText]
    rw [hp]
    exact ih (fun s2 hs2 => h s2 (by simp [hs2]))

lemma origSelectorText_first_nonempty (find : String → Option String)
    (post : List String) (sel t : String) (hfind : find sel = some t)
    (htt : jsTrim t ≠ "") :
    ∀ (pre : List String) (acc : Option String),
      (∀ s2 ∈ pre, ∀ u, find s2 = some u → jsTrim u = "") →
      origSelectorText find acc (pre ++ sel :: post) = some (jsTrim t) := by
  intro pre
  induction pre with
  | nil =>
    intro acc _
    simp only [List.nil_append, origSelectorText]
    rw [hfind]
    simp [htt]
  | cons p ps ih =>
    intro acc hpre
    simp only [List.cons_append, origSelectorText]
    cases hfp : find p with
    | none => exact ih acc (fun s2 hs2 => hpre s2 (by simp [hs2]))
    | some u =>
      have hu : jsTrim u = "" := hpre p (by simp) u hfp
      simp only [hu]
      simp only [ne_eq, not_true_eq_false, if_false]
      exact ih (some "") (fun s2 hs2 => hpre s2 (by simp [hs2]))

lemma origSelectorText_all_empty (find : String → Option String) (sels : List String) :
    ∀ acc : Option String, (acc = none ∨ acc = some "") →
      (∀ s2 ∈ sels, ∀ u, find s2 = some u → jsTrim u = "") →
      origSelectorText find acc sels = none ∨ origSelectorText find acc sels = some "" := by
  induction sels with
  | nil =>
    intro acc hacc _
    simpa [origSelectorText] using hacc
  | cons p ps ih =>
    intro acc hacc hpre
    simp only [origSelectorText]
    cases hfp : find p with
    | none => exact ih acc hacc (fun s2 hs2 => hpre s2 (by simp [hs2]))
    | some u =>
      have hu : jsTrim u = "" := hpre p (by simp) u hfp
      simp only [hu]
      simp only [ne_eq, not_true_eq_false, if_false]
      exact ih (some "") (Or.inr rfl) (fun s2 hs2 => hpre s2 (by simp [hs2]))

/-- C2 (counterexample): with one original-price selector whose matched text
is the non-empty word sale, extractNumbers yields null and the fallback to
current_price applies even though a candidate yielded non-empty text — so
the fallback does not apply only when no candidate text is non-empty. -/
theorem originalPrice_fallback_cex :
    origSelectorText (fun s => if s = ".op" then some "sale" else none) none [".op"] =
      some "sale" ∧
    jsTrim "sale" ≠ "" ∧
    extractNumbers (some "sale") = none ∧
    originalPriceOf
      ⟨fun s => if s = ".op" then some "sale" else none, fun _ => "", fun _ => none⟩
      [".op"] (some 5) = some 5 := by
  refine ⟨by decide, by decide, by decide, ?_⟩
  rfl

/-- C2 (amended): the current price comes from the first selector matching
any element, even with empty text (in which case extraction yields null);
the original price comes from the first selector with non-empty trimmed
text; the fallback to current_price applies exactly when extractNumbers of
the selected text is null or 0 — in particular (but not only) whenever no
candidate yields non-empty text. -/
theorem priceSelection_amended :
    (∀ (find : String → Option String) (pre post : List String) (sel t : String),
      (∀ s2 ∈ pre, find s2 = none) → find sel = some t →
      firstSelectorText find (pre ++ sel :: post) = some (jsTrim t)) ∧
    (∀ (find : String → Option String) (sels : List String),
      (∀ s2 ∈ sels, find s2 = none) → firstSelectorText find sels = none) ∧
    (∀ (c : Container) (pre post : List String) (sel : String),
      (∀ s2 ∈ pre, c.find s2 = none) → c.find sel = some "" →
      currentPriceOf c (pre ++ sel :: post) = none) ∧
    (∀ (find : String → Option String) (acc : Option String) (pre post : List String)
        (sel t : String),
      (∀ s2 ∈ pre, ∀ u, find s2 = some u → jsTrim u = "") → find sel = some t →
      jsTrim t ≠ "" →
      origSelectorText find acc (pre ++ sel :: post) = some (jsTrim t)) ∧
    (∀ (c : Container) (sels : List String) (cur : Option Rat),
      extractNumbers (origSelectorText c.find none sels) = none ∨
      extractNumbers (origSelectorText c.find none sels) = some 0 →
      originalPriceOf c sels cur = cur) ∧
    (∀ (c : Container) (sels : List String) (cur : Option Rat) (x : Rat),
      extractNumbers (origSelectorText c.find none sels) = some x → x ≠ 0 →
      originalPriceOf c sels cur = some x) ∧
    (∀ (c : Container) (sels : List String) (cur : Option Rat),
      (∀ s2 ∈ sels, ∀ u, c.find s2 = some u → jsTrim u = "") →
      originalPriceOf c sels cur = cur) := by
  refine ⟨firstSelectorText_first_match, firstSelectorText_none, ?_, ?_, ?_, ?_, ?_⟩
  · intro c pre post sel hpre hfind
    unfold currentPriceOf
    rw [firstSelectorText_first_match c.find pre post sel "" hpre hfind]
    decide
  · intro find acc pre post sel t hpre hfind htt
    exact origSelectorText_first_nonempty find post sel t hfind htt pre acc hpre
  · intro c sels cur h
    unfold originalPriceOf
    cases h with
    | inl h => rw [h]; rfl
    | inr h => rw [h]; simp [jsOrNum]
  · intro c sels cur x hx hx0
    unfold originalPriceOf
    rw [hx]
    simp [jsOrNum, hx0]
  · intro c sels cur hall
    unfold originalPriceOf
    cases origSelectorText_all_empty c.find sels none (Or.inl rfl) hall with
    | inl h => rw [h]; rfl
    | inr h =>
      rw [h]
      have he : extractNumbers (some "") = none := by decide
      rw [he]
      rfl

/-! ## C5 : brand and category classification -/

/-- C5: classification is a first-match-wins scan of the ordered tables over
the lowercased name, with the laptop and tablet checks ahead of the general
category table: MacBook Air M4 is a laptop (not a phone), Samsung Galaxy S23
is Samsung, and a name matching no pattern — including an absent or empty
name — yields the sentinels Unknown and other, never null. -/
theorem classifier_spec :
    detectCategoryFromName (some "MacBook Air M4") = "laptops" ∧
    detectBrandFromName (some "Samsung Galaxy S23") = "Samsung" ∧
    (detectBrandFromName none = "Unknown" ∧ detectBrandFromName (some "") = "Unknown" ∧
     detectCategoryFromName none = "other" ∧ detectCategoryFromName (some "") = "other") ∧
    (∀ s : String,
      (∀ bp ∈ brandPatterns, ∀ re ∈ bp.2, re.test (jsToLowerCase s) = false) →
      detectBrandFromName (some s) = "Unknown") ∧
    (∀ s : String,
      (∀ re ∈ laptopRegexes, re.test (jsToLowerCase s) = false) →
      (∀ re ∈ tabletRegexes, re.test (jsToLowerCase s) = false) →
      (∀ cp ∈ categoryPatterns, ∀ re ∈ cp.2, re.test (jsToLowerCase s) = false) →
      detectCategoryFromName (some s) = "other") ∧
    (∀ s : String,
      laptopRegexes.any (fun re => re.test (jsToLowerCase s)) = true →
      detectCategoryFromName (some s) = "laptops") := by
  refine ⟨by decide, by decide, ⟨rfl, by decide, rfl, by decide⟩, ?_, ?_, ?_⟩
  · intro s h
    by_cases hs : s = ""
    · subst hs
      decide
    · have hfind : brandPatterns.find?
          (fun bp => bp.2.any (fun re => re.test (jsToLowerCase s))) = none := by
        rw [List.find?_eq_none]
        intro bp hbp
        simp only [List.any_eq_true, not_exists]
        intro re
        rw [not_and]
        intro hre
        simp [h bp hbp re hre]
      show (if s = "" then "Unknown"
            else match brandPatterns.find?
                (fun bp => bp.2.any (fun re => re.test (jsToLowerCase s))) with
              | some bp => bp.1
              | none => "Unknown") = "Unknown"
      rw [if_neg hs, hfind]
  · intro s hlap htab hcat
    by_cases hs : s = ""
    · subst hs
      decide
    · have hl : laptopRegexes.any (fun re => re.test (jsToLowerCase s)) = false := by
        rw [List.any_eq_false]
        intro re hre
        simp [hlap re hre]
      have ht : tabletRegexes.any (fun re => re.test (jsToLowerCase s)) = false := by
        rw [List.any_eq_false]
        intro re hre
        simp [htab re hre]
      have hfind : categoryPatterns.find?
          (fun cp => cp.2.any (fun re => re.test (jsToLowerCase s))) = none := by
        rw [List.find?_eq_none]
        intro cp hcp
        simp only [List.any_eq_true, not_exists]
        intro re
        rw [not_and]
        intro hre
        simp [hcat cp hcp re hre]
      show (if s = "" then "other"
            else if laptopRegexes.any (fun re => re.test (jsToLowerCase s)) = true then "laptops"
            else if tabletRegexes.any (fun re => re.test (jsToLowerCase s)) = true then "tablets"
            else match categoryPatterns.find?
                (fun cp => cp.2.any (fun re => re.test (jsToLowerCase s))) with
              | some cp => cp.1
              | none => "other") = "other"
      rw [if_neg hs, hl, ht]
      simp only [Bool.false_eq_true, if_false]
      rw [hfind]
  · intro s hlap
    by_cases hs : s = ""
    · subst hs
      have : laptopRegexes.any (fun re => re.test (jsToLowerCase "")) = false := by decide
      rw [this] at hlap
      cases hlap
    · show (if s = "" then "other"
            else if laptopRegexes.any (fun re => re.test (jsToLowerCase s)) = true then "laptops"
            else if tabletRegexes.any (fun re => re.test (jsToLowerCase s)) = true then "tablets"
            else match categoryPatterns.find?
                (fun cp => cp.2.any (fun re => re.test (jsToLowerCase s))) with
              | some cp => cp.1
              | none => "other") = "laptops"
      rw [if_neg hs, hlap]
      simp

/-- C5 witness: the sentinel clauses applied at concrete unmatched input zzz
and the laptop-priority clause at a ThinkPad name. -/
theorem classifier_spec_witness :
    detectBrandFromName (some "zzz") = "Unknown" ∧
    detectCategoryFromName (some "zzz") = "other" ∧
    detectCategoryFromName (some "ThinkPad X1") = "laptops" := by
  refine ⟨?_, ?_, ?_⟩
  · exact classifier_spec.2.2.2.1 "zzz" (by decide)
  · exact classifier_spec.2.2.2.2.1 "zzz" (by decide) (by decide) (by decide)
  · exact classifier_spec.2.2.2.2.2 "ThinkPad X1" (by decide)

/-! ## C3 : expandSection -/

lemma expandLoop_fuel_agnostic (env : Nat → AttemptOutcome) (sec : SectionKind)
    (maxClicks maxAttempts : Nat) :
    ∀ (f1 f2 attempts c : Nat), maxAttempts ≤ attempts + f1 → maxAttempts ≤ attempts + f2 →
      expandLoop env sec maxClicks maxAttempts f1 attempts c =
      expandLoop env sec maxClicks maxAttempts f2 attempts c := by
  intro f1
  induction f1 with
  | zero =>
    intro f2 attempts c h1 h2
    cases f2 with
    | zero => rfl
    | succ g =>
      rw [expandLoop, expandLoop, if_neg]
      intro hcon
      omega
  | succ f ih =>
    intro f2 attempts c h1 h2
    cases f2 with
    | zero =>
      rw [expandLoop, expandLoop, if_neg]
      intro hcon
      omega
    | succ g =>
      rw [expandLoop]
      conv_rhs => rw [expandLoop]
      by_cases hcond : c < maxClicks ∧ attempts < maxAttempts
      · rw [if_pos hcond, if_pos hcond]
        dsimp only
        cases henv : env (attempts + 1) with
        | err =>
          dsimp only
          split_ifs with hstop
          · rfl
          · exact ih g (attempts + 1) c (by omega) (by omega)
        | notFound n =>
          dsimp only
          split_ifs with hsuff hstop
          · rfl
          · rfl
          · exact ih g (attempts + 1) c (by omega) (by omega)
        | found ok still =>
          dsimp only
          cases ok with
          | false =>
            rw [if_neg Bool.false_ne_true, if_neg Bool.false_ne_true]
            split_ifs with hstop hstill
            · rfl
            · exact ih g (attempts + 1) c (by omega) (by omega)
            · rfl
          | true =>
            rw [if_pos rfl, if_pos rfl]
            cases still with
            | false => rw [if_neg Bool.false_ne_true, if_neg Bool.false_ne_true]
            | true =>
              rw [if_pos rfl, if_pos rfl]
              exact ih g (attempts + 1) (c + 1) (by omega) (by omega)
      · rw [if_neg hcond, if_neg hcond]

lemma expandLoop_bounds (env : Nat → AttemptOutcome) (sec : SectionKind)
    (maxClicks maxAttempts : Nat) :
    ∀ (fuel attempts c : Nat), c ≤ maxClicks → attempts ≤ maxAttempts →
      (expandLoop env sec maxClicks maxAttempts fuel attempts c).1 ≤ maxClicks ∧
      (expandLoop env sec maxClicks maxAttempts fuel attempts c).2 ≤ maxAttempts := by
  intro fuel
  induction fuel with
  | zero =>
    intro attempts c hc ha
    rw [expandLoop]
    exact ⟨hc, ha⟩
  | succ f ih =>
    intro attempts c hc ha
    rw [expandLoop]
    by_cases hcond : c < maxClicks ∧ attempts < maxAttempts
    · rw [if_pos hcond]
      dsimp only
      cases henv : env (attempts + 1) with
      | err =>
        dsimp only
        split_ifs with hstop
        · exact ⟨hc, hcond.2⟩
        · exact ih (attempts + 1) c hc hcond.2
      | notFound n =>
        dsimp only
        split_ifs with hsuff hstop
        · exact ⟨hc, hcond.2⟩
        · exact ⟨hc, hcond.2⟩
        · exact ih (attempts + 1) c hc hcond.2
      | found ok still =>
        dsimp only
        cases ok with
        | false =>
          rw [if_neg Bool.false_ne_true]
          split_ifs with hstop hstill
          · exact ⟨hc, hcond.2⟩
          · exact ih (attempts + 1) c hc hcond.2
          · exact ⟨hc, hcond.2⟩
        | true =>
          rw [if_pos rfl]
          cases still with
          | false =>
            rw [if_neg Bool.false_ne_true]
            exact ⟨hcond.1, hcond.2⟩
          | true =>
            rw [if_pos rfl]
            exact ih (attempts + 1) (c + 1) hcond.1 hcond.2
    · rw [if_neg hcond]
      exact ⟨hc, ha⟩

lemma expandLoop_disappear (env : Nat → AttemptOutcome) (sec : SectionKind)
    (maxClicks N : Nat)
    (henv : ∀ k, 1 ≤ k → k ≤ N → env k = .found true (decide (k < N)))
    (hN : N ≤ maxClicks) :
    ∀ (fuel a : Nat), a < N → N - a ≤ fuel →
      expandLoop env sec maxClicks (maxClicks + 3) fuel a a = (N, N) := by
  intro fuel
  induction fuel with
  | zero =>
    intro a ha hfa
    omega
  | succ f ih =>
    intro a ha hfa
    rw [expandLoop, if_pos (⟨by omega, by omega⟩ : a < maxClicks ∧ a < maxClicks + 3)]
    dsimp only
    rw [henv (a + 1) (by omega) (by omega)]
    dsimp only
    rw [if_pos rfl]
    by_cases hlt : a + 1 < N
    · rw [decide_eq_true hlt, if_pos rfl]
      exact ih (a + 1) hlt (by omega)
    · have haN : a + 1 = N := by omega
      rw [decide_eq_false hlt, if_neg Bool.false_ne_true, haN]

lemma expandLoop_step_notFound (env : Nat → AttemptOutcome) (sec : SectionKind)
    (maxClicks maxAttempts f a c n : Nat)
    (h : env (a + 1) = .notFound n) (hsuff : itemsSufficient sec n = false)
    (hc : c < maxClicks) (ha : a < maxAttempts) (h3 : ¬ 3 ≤ a + 1) :
    expandLoop env sec maxClicks maxAttempts (f + 1) a c =
    expandLoop env sec maxClicks maxAttempts f (a + 1) c := by
  rw [expandLoop, if_pos ⟨hc, ha⟩]
  dsimp only
  rw [h]
  dsimp only
  rw [hsuff, if_neg Bool.false_ne_true, if_neg h3]

lemma expandLoop_stop_notFound (env : Nat → AttemptOutcome) (sec : SectionKind)
    (maxClicks maxAttempts f a c n : Nat)
    (h : env (a + 1) = .notFound n) (hsuff : itemsSufficient sec n = false)
    (hc : c < maxClicks) (ha : a < maxAttempts) (h3 : 3 ≤ a + 1) :
    expandLoop env sec maxClicks maxAttempts (f + 1) a c = (c, a + 1) := by
  rw [expandLoop, if_pos ⟨hc, ha⟩]
  dsimp only
  rw [h]
  dsimp only
  rw [hsuff, if_neg Bool.false_ne_true, if_pos h3]

lemma expandLoop_stop_sufficient (env : Nat → AttemptOutcome) (sec : SectionKind)
    (maxClicks maxAttempts f a c n : Nat)
    (h : env (a + 1) = .notFound n) (hsuff : itemsSufficient sec n = true)
    (hc : c < maxClicks) (ha : a < maxAttempts) :
    expandLoop env sec maxClicks maxAttempts (f + 1) a c = (c, a + 1) := by
  rw [expandLoop, if_pos ⟨hc, ha⟩]
  dsimp only
  rw [h]
  dsimp only
  rw [hsuff, if_pos rfl]

/-- C3: for every page behaviour and click budget, expandSection returns a
click count between 0 and maxClicks using at most maxClicks + 3 attempts
(the loop is a total function, so it terminates and never throws past its
boundary: attempt errors are absorbed); a control that disappears after N
successful activations yields exactly N clicks in N attempts when the budget
allows; a control that never appears with sufficient visible content
(more than 3 stores, more than 2 reviews) yields 0 as a success; and three
initial location failures with insufficient content stop the loop by the
third attempt with 0 clicks. -/
theorem expandSection_spec :
    (∀ (env : Nat → AttemptOutcome) (sec : SectionKind) (maxClicks : Nat),
      (expandSection env sec maxClicks).1 ≤ maxClicks ∧
      (expandSection env sec maxClicks).2 ≤ maxClicks + 3) ∧
    (∀ (env : Nat → AttemptOutcome) (sec : SectionKind) (maxClicks N : Nat),
      1 ≤ N → N ≤ maxClicks →
      (∀ k, 1 ≤ k → k ≤ N → env k = .found true (decide (k < N))) →
      expandSection env sec maxClicks = (N, N)) ∧
    (∀ (sec : SectionKind) (maxClicks visibleCount : Nat),
      itemsSufficient sec visibleCount = true →
      (expandSection (fun _ => .notFound visibleCount) sec maxClicks).1 = 0) ∧
    (itemsSufficient .stores 4 = true ∧ itemsSufficient .stores 3 = false ∧
     itemsSufficient .reviews 3 = true ∧ itemsSufficient .reviews 2 = false) ∧
    (∀ (env : Nat → AttemptOutcome) (sec : SectionKind) (maxClicks c1 c2 c3 : Nat),
      env 1 = .notFound c1 → env 2 = .notFound c2 → env 3 = .notFound c3 →
      itemsSufficient sec c1 = false → itemsSufficient sec c2 = false →
      itemsSufficient sec c3 = false →
      (expandSection env sec maxClicks).1 = 0 ∧ (expandSection env sec maxClicks).2 ≤ 3) := by
  refine ⟨?_, ?_, ?_, by decide, ?_⟩
  · intro env sec maxClicks
    exact expandLoop_bounds env sec maxClicks (maxClicks + 3) (maxClicks + 3) 0 0
      (by omega) (by omega)
  · intro env sec maxClicks N hN1 hN2 henv
    simp only [expandSection]
    exact expandLoop_disappear env sec maxClicks N henv hN2 (maxClicks + 3) 0
      (by omega) (by omega)
  · intro sec maxClicks visibleCount hsuff
    cases maxClicks with
    | zero =>
      simp only [expandSection]
      rw [show (0 + 3 : Nat) = 2 + 1 from rfl, expandLoop, if_neg (by omega)]
    | succ m =>
      simp only [expandSection]
      rw [show (m + 1 + 3 : Nat) = (m + 3) + 1 from rfl]
      rw [expandLoop_stop_sufficient (fun _ => .notFound visibleCount) sec (m + 1) (m + 1 + 3)
        (m + 3) 0 0 visibleCount rfl hsuff (by omega) (by omega)]
  · intro env sec maxClicks c1 c2 c3 h1 h2 h3 hs1 hs2 hs3
    cases maxClicks with
    | zero =>
      simp only [expandSection]
      rw [show (0 + 3 : Nat) = 2 + 1 from rfl, expandLoop, if_neg (by omega)]
      exact ⟨rfl, by omega⟩
    | succ m =>
      simp only [expandSection]
      rw [show (m + 1 + 3 : Nat) = (m + 3) + 1 from rfl]
      rw [expandLoop_step_notFound env sec (m + 1) (m + 1 + 3) (m + 3) 0 0 c1
        (show env (0 + 1) = .notFound c1 from h1) hs1 (by omega) (by omega) (by omega)]
      rw [show (m + 3 : Nat) = (m + 2) + 1 from rfl]
      rw [expandLoop_step_notFound env sec (m + 1) (m + 1 + 3) (m + 2) (0 + 1) 0 c2
        (show env (0 + 1 + 1) = .notFound c2 from h2) hs2 (by omega) (by omega) (by omega)]
      rw [show (m + 2 : Nat) = (m + 1) + 1 from rfl]
      rw [expandLoop_stop_notFound env sec (m + 1) (m + 1 + 3) (m + 1) (0 + 1 + 1) 0 c3
        (show env (0 + 1 + 1 + 1) = .notFound c3 from h3) hs3 (by omega) (by omega) (by omega)]
      exact ⟨rfl, by omega⟩

/-- C3 witness: a control disappearing after 2 activations under budget 7
gives exactly (2, 2); a never-appearing control over 5 visible stores gives
0 clicks; three failed locations with 1 visible store stop at attempt 3. -/
theorem expandSection_spec_witness :
    expandSection (fun k => .found true (decide (k < 2))) .stores 7 = (2, 2) ∧
    (expandSection (fun _ => .notFound 5) .stores 7).1 = 0 ∧
    (expandSection (fun _ => .notFound 1) .stores 7).1 = 0 ∧
    (expandSection (fun _ => .notFound 1) .stores 7).2 ≤ 3 := by
  refine ⟨?_, ?_, ?_, ?_⟩
  · exact expandSection_spec.2.1 (fun k => .found true (decide (k < 2))) .stores 7 2
      (by omega) (by omega) (fun k h1 h2 => rfl)
  · exact expandSection_spec.2.2.1 .stores 7 5 (by decide)
  · exact (expandSection_spec.2.2.2.2 (fun _ => .notFound 1) .stores 7 1 1 1
      rfl rfl rfl (by decide) (by decide) (by decide)).1
  · exact (expandSection_spec.2.2.2.2 (fun _ => .notFound 1) .stores 7 1 1 1
      rfl rfl rfl (by decide) (by decide) (by decide)).2

/-! ## C1 : price aggregation -/

lemma foldl_jsnMin_map (x : Rat) (xs : List Rat) :
    (xs.map JSNum.val).foldl jsnMin (.val x) = .val (xs.foldl min x) := by
  induction xs generalizing x with
  | nil => rfl
  | cons y t ih =>
    simp only [List.map_cons, List.foldl_cons]
    exact ih (min x y)

lemma foldl_jsnMax_map (x : Rat) (xs : List Rat) :
    (xs.map JSNum.val).foldl jsnMax (.val x) = .val (xs.foldl max x) := by
  induction xs generalizing x with
  | nil => rfl
  | cons y t ih =>
    simp only [List.map_cons, List.foldl_cons]
    exact ih (max x y)

lemma foldl_jsnAdd_map (x : Rat) (xs : List Rat) :
    (xs.map JSNum.val).foldl jsnAdd (.val x) = .val (xs.foldl (· + ·) x) := by
  induction xs generalizing x with
  | nil => rfl
  | cons y t ih =>
    simp only [List.map_cons, List.foldl_cons]
    exact ih (x + y)

lemma foldl_min_le_init (a : Rat) (l : List Rat) : l.foldl min a ≤ a := by
  induction l generalizing a with
  | nil => exact le_refl a
  | cons y t ih =>
    simp only [List.foldl_cons]
    calc t.foldl min (min a y) ≤ min a y := ih (min a y)
      _ ≤ a := min_le_left a y

lemma le_foldl_max_init (a : Rat) (l : List Rat) : a ≤ l.foldl max a := by
  induction l generalizing a with
  | nil => exact le_refl a
  | cons y t ih =>
    simp only [List.foldl_cons]
    calc a ≤ max a y := le_max_left a y
      _ ≤ t.foldl max (max a y) := ih (max a y)

lemma foldl_min_le_mem {l : List Rat} {b : Rat} (h : b ∈ l) :
    ∀ a, l.foldl min a ≤ b := by
  induction l with
  | nil => cases h
  | cons y t ih =>
    intro a
    simp only [List.foldl_cons]
    rcases List.mem_cons.mp h with heq | hmem
    · subst heq
      calc t.foldl min (min a b) ≤ min a b := foldl_min_le_init _ _
        _ ≤ b := min_le_right a b
    · exact ih hmem (min a y)

lemma le_foldl_max_mem {l : List Rat} {b : Rat} (h : b ∈ l) :
    ∀ a, b ≤ l.foldl max a := by
  induction l with
  | nil => cases h
  | cons y t ih =>
    intro a
    simp only [List.foldl_cons]
    rcases List.mem_cons.mp h with heq | hmem
    · subst heq
      calc b ≤ max a b := le_max_right a b
        _ ≤ t.foldl max (max a b) := le_foldl_max_init _ _
    · exact ih hmem (max a y)

lemma foldl_min_mem (l : List Rat) : ∀ a, l.foldl min a ∈ a :: l := by
  induction l with
  | nil => intro a; simp
  | cons y t ih =>
    intro a
    simp only [List.foldl_cons]
    rcases List.mem_cons.mp (ih (min a y)) with heq | hmem
    · rcases min_choice a y with h2 | h2
      · rw [heq, h2]
        exact List.mem_cons_self a _
      · rw [heq, h2]
        simp
    · simp [List.mem_cons.mpr (Or.inr hmem)]

lemma foldl_max_mem (l : List Rat) : ∀ a, l.foldl max a ∈ a :: l := by
  induction l with
  | nil => intro a; simp
  | cons y t ih =>
    intro a
    simp only [List.foldl_cons]
    rcases List.mem_cons.mp (ih (max a y)) with heq | hmem
    · rcases max_choice a y with h2 | h2
      · rw [heq, h2]
        exact List.mem_cons_self a _
      · rw [heq, h2]
        simp
    · simp [List.mem_cons.mpr (Or.inr hmem)]

lemma foldl_add_eq (l : List Rat) : ∀ a, l.foldl (· + ·) a = a + l.foldl (· + ·) 0 := by
  induction l with
  | nil => intro a; simp
  | cons y t ih =>
    intro a
    simp only [List.foldl_cons]
    rw [ih (a + y), ih (0 + y)]
    ring

lemma foldl_min_mul_le (l : List Rat) :
    ∀ a, l.foldl min a * ((l.length : Rat) + 1) ≤ l.foldl (· + ·) a := by
  induction l with
  | nil => intro a; simp
  | cons y t ih =>
    intro a
    simp only [List.foldl_cons, List.length_cons]
    have h1 := ih (min a y)
    rw [foldl_add_eq t (a + y)]
    rw [foldl_add_eq t (min a y)] at h1
    have h2 : t.foldl min (min a y) ≤ min a y := foldl_min_le_init _ _
    have h3 : min a y ≤ a := min_le_left a y
    have h4 : min a y ≤ y := min_le_right a y
    have e : t.foldl min (min a y) * (((t.length : Nat) + 1 : Nat) + 1 : Rat) =
        t.foldl min (min a y) * ((t.length : Rat) + 1) + t.foldl min (min a y) := by
      push_cast
      ring
    push_cast
    push_cast at e h1
    linarith [e, h1, h2, h3, h4]

lemma le_foldl_max_mul (l : List Rat) :
    ∀ a, l.foldl (· + ·) a ≤ l.foldl max a * ((l.length : Rat) + 1) := by
  induction l with
  | nil => intro a; simp
  | cons y t ih =>
    intro a
    simp only [List.foldl_cons, List.length_cons]
    have h1 := ih (max a y)
    rw [foldl_add_eq t (a + y)]
    rw [foldl_add_eq t (max a y)] at h1
    have h2 : max a y ≤ t.foldl max (max a y) := le_foldl_max_init _ _
    have h3 : a ≤ max a y := le_max_left a y
    have h4 : y ≤ max a y := le_max_right a y
    have e : t.foldl max (max a y) * (((t.length : Nat) + 1 : Nat) + 1 : Rat) =
        t.foldl max (max a y) * ((t.length : Rat) + 1) + t.foldl max (max a y) := by
      push_cast
      ring
    push_cast
    push_cast at e h1
    linarith [e, h1, h2, h3, h4]

lemma foldl_nan_absorb (f : JSNum → JSNum → JSNum)
    (hl : ∀ y, f .nan y = .nan) (hr : ∀ x, f x .nan = .nan) :
    (∀ l : List JSNum, l.foldl f .nan = .nan) ∧
    (∀ (l : List JSNum), JSNum.nan ∈ l → ∀ i, l.foldl f i = .nan) := by
  have part1 : ∀ l : List JSNum, l.foldl f .nan = .nan := by
    intro l
    induction l with
    | nil => rfl
    | cons y t ih =>
      simp only [List.foldl_cons, hl y]
      exact ih
  refine ⟨part1, ?_⟩
  intro l
  induction l with
  | nil => intro h; cases h
  | cons y t ih =>
    intro h i
    simp only [List.foldl_cons]
    rcases List.mem_cons.mp h with heq | hmem
    · rw [← heq, hr i]
      exact part1 t
    · exact ih hmem (f i y)

/-- C1 (counterexample): for the single offer priced 1.006 all three
functions are non-null, but the average — the mean rounded to 2 decimals —
is 1.01, strictly above the highest price 1.006, so
lowestPrice <= averagePrice <= highestPrice fails as stated. -/
theorem aggregatePrices_rounding_cex :
    getLowestPrice [.num (1006/1000)] = some (.val (1006/1000)) ∧
    getHighestPrice [.num (1006/1000)] = some (.val (1006/1000)) ∧
    getAveragePrice [.num (1006/1000)] = some (.val (101/100)) ∧
    ¬ ((101 : Rat)/100 ≤ 1006/1000) := by
  refine ⟨rfl, rfl, ?_, by norm_num⟩
  show some (JSNum.val (toFixed2 ((0 + 1006/1000) / ((1 : Nat) : Rat)))) =
    some (JSNum.val (101/100))
  norm_num [toFixed2, round_eq]

/-- C1 (amended): all three aggregation functions return null exactly when
the offer list is empty or no offer has a defined (non-null, non-undefined)
current price.  When every defined price coerces to a finite number and at
least one exists, lowest is the minimum and highest the maximum of the
coerced prices, the unrounded mean lies between them, and the average — the
mean rounded to 2 decimals — lies within 1/200 of that range
(lowest - 0.005 <= average <= highest + 0.005; the counterexample shows the
unslackened inequality is unprovable).  When some defined price does not
coerce (NaN), the functions return NaN, not null.  Prices given as strings
with comma separators are tolerated the same as numeric prices. -/
theorem aggregatePrices_amended :
    (∀ stores : List JSVal, stores.filter isDefined = [] →
      getLowestPrice stores = none ∧ getHighestPrice stores = none ∧
      getAveragePrice stores = none) ∧
    (∀ (stores : List JSVal) (x : Rat) (xs : List Rat),
      validPrices stores = (x :: xs).map JSNum.val →
      getLowestPrice stores = some (.val (xs.foldl min x)) ∧
      getHighestPrice stores = some (.val (xs.foldl max x)) ∧
      getAveragePrice stores =
        some (.val (toFixed2 ((x :: xs).foldl (· + ·) 0 / ((xs.length : Rat) + 1)))) ∧
      xs.foldl min x ∈ x :: xs ∧
      xs.foldl max x ∈ x :: xs ∧
      (∀ y ∈ x :: xs, xs.foldl min x ≤ y ∧ y ≤ xs.foldl max x) ∧
      xs.foldl min x ≤ (x :: xs).foldl (· + ·) 0 / ((xs.length : Rat) + 1) ∧
      (x :: xs).foldl (· + ·) 0 / ((xs.length : Rat) + 1) ≤ xs.foldl max x ∧
      xs.foldl min x - 1/200 ≤ toFixed2 ((x :: xs).foldl (· + ·) 0 / ((xs.length : Rat) + 1)) ∧
      toFixed2 ((x :: xs).foldl (· + ·) 0 / ((xs.length : Rat) + 1)) ≤ xs.foldl max x + 1/200) ∧
    (∀ stores : List JSVal, JSNum.nan ∈ validPrices stores →
      getLowestPrice stores = some .nan ∧ getHighestPrice stores = some .nan ∧
      getAveragePrice stores = some .nan) ∧
    validPrices [.str "1,234.5"] = validPrices [.num (2469/2)] := by
  refine ⟨?_, ?_, ?_, ?_⟩
  · intro stores hfilter
    have hv : validPrices stores = [] := by
      unfold validPrices
      rw [hfilter]
      rfl
    refine ⟨?_, ?_, ?_⟩
    · simp [getLowestPrice, hv]
    · simp [getHighestPrice, hv]
    · simp [getAveragePrice, hv]
  · intro stores x xs hvp
    have hsne : stores.isEmpty = false := by
      cases stores with
      | nil => simp [validPrices] at hvp
      | cons s ss => rfl
    have hn : (0 : Rat) < (xs.length : Rat) + 1 := by positivity
    have hsum : (x :: xs).foldl (· + ·) 0 = xs.foldl (· + ·) x := by
      simp only [List.foldl_cons, zero_add]
    have hmean1 : xs.foldl min x ≤ (x :: xs).foldl (· + ·) 0 / ((xs.length : Rat) + 1) := by
      rw [le_div_iff₀ hn, hsum]
      exact foldl_min_mul_le xs x
    have hmean2 : (x :: xs).foldl (· + ·) 0 / ((xs.length : Rat) + 1) ≤ xs.foldl max x := by
      rw [div_le_iff₀ hn, hsum]
      exact le_foldl_max_mul xs x
    have hround := abs_sub_round ((x :: xs).foldl (· + ·) 0 / ((xs.length : Rat) + 1) * 100)
    rw [abs_le] at hround
    have hfix1 : xs.foldl min x - 1/200 ≤
        toFixed2 ((x :: xs).foldl (· + ·) 0 / ((xs.length : Rat) + 1)) := by
      unfold toFixed2
      have := hround.2
      linarith [hmean1]
    have hfix2 : toFixed2 ((x :: xs).foldl (· + ·) 0 / ((xs.length : Rat) + 1)) ≤
        xs.foldl max x + 1/200 := by
      unfold toFixed2
      have := hround.1
      linarith [hmean2]
    refine ⟨?_, ?_, ?_, foldl_min_mem xs x, foldl_max_mem xs x, ?_, hmean1, hmean2, hfix1, hfix2⟩
    · simp only [getLowestPrice, hsne, Bool.false_eq_true, if_false]
      rw [hvp]
      simp only [List.map_cons]
      show some ((xs.map JSNum.val).foldl jsnMin (JSNum.val x)) = _
      rw [foldl_jsnMin_map]
    · simp only [getHighestPrice, hsne, Bool.false_eq_true, if_false]
      rw [hvp]
      simp only [List.map_cons]
      show some ((xs.map JSNum.val).foldl jsnMax (JSNum.val x)) = _
      rw [foldl_jsnMax_map]
    · simp only [getAveragePrice, hsne, Bool.false_eq_true, if_false]
      rw [hvp]
      simp only [List.map_cons]
      have hsum2 : (JSNum.val x :: xs.map JSNum.val).foldl jsnAdd (JSNum.val 0) =
          JSNum.val ((x :: xs).foldl (· + ·) 0) := by
        have := foldl_jsnAdd_map 0 (x :: xs)
        simpa [List.map_cons] using this
      show (match (JSNum.val x :: xs.map JSNum.val).foldl jsnAdd (JSNum.val 0) with
            | JSNum.nan => some JSNum.nan
            | JSNum.val s => some (JSNum.val (toFixed2 (s /
                (((JSNum.val x :: xs.map JSNum.val).length : Nat) : Rat))))) = _
      rw [hsum2]
      show some (JSNum.val (toFixed2 ((x :: xs).foldl (· + ·) 0 /
            (((xs.map JSNum.val).length + 1 : Nat) : Rat)))) = _
      rw [show ((xs.map JSNum.val).length + 1 : Nat) = xs.length + 1 from by
        simp]
      push_cast
      rfl
    · intro y hy
      rcases List.mem_cons.mp hy with heq | hmem
      · subst heq
        exact ⟨foldl_min_le_init y xs, le_foldl_max_init y xs⟩
      · exact ⟨foldl_min_le_mem hmem x, le_foldl_max_mem hmem x⟩
  · intro stores hnan
    have hmin := foldl_nan_absorb jsnMin (fun y => by cases y <;> rfl) (fun x => by cases x <;> rfl)
    have hmax := foldl_nan_absorb jsnMax (fun y => by cases y <;> rfl) (fun x => by cases x <;> rfl)
    have hadd := foldl_nan_absorb jsnAdd (fun y => by cases y <;> rfl) (fun x => by cases x <;> rfl)
    have hsne : stores.isEmpty = false := by
      cases stores with
      | nil => simp [validPrices] at hnan
      | cons s ss => rfl
    cases hvp : validPrices stores with
    | nil =>
      rw [hvp] at hnan
      cases hnan
    | cons v vs =>
      rw [hvp] at hnan
      refine ⟨?_, ?_, ?_⟩
      · simp only [getLowestPrice, hsne, Bool.false_eq_true, if_false, hvp]
        rcases List.mem_cons.mp hnan with heq | hmem
        · rw [← heq, hmin.1 vs]
        · rw [hmin.2 vs hmem v]
      · simp only [getHighestPrice, hsne, Bool.false_eq_true, if_false, hvp]
        rcases List.mem_cons.mp hnan with heq | hmem
        · rw [← heq, hmax.1 vs]
        · rw [hmax.2 vs hmem v]
      · simp only [getAveragePrice, hsne, Bool.false_eq_true, if_false, hvp]
        have : (v :: vs).foldl jsnAdd (.val 0) = .nan := hadd.2 (v :: vs) hnan (.val 0)
        rw [this]
  · have h1 : stripCommas "1,234.5" = "1234.5" := by decide
    have hp : jsParseFloatParts "1234.5" = some ⟨false, "1234".data, "5".data, 0⟩ := by decide
    have hd1 : digitsToNat "1234".data = 1234 := by decide
    have hd2 : digitsToNat "5".data = 5 := by decide
    have hv : floatPartsValue ⟨false, "1234".data, "5".data, 0⟩ = 2469/2 := by
      simp only [floatPartsValue, hd1, hd2]
      norm_num
    have htn : toNumber (.str "1,234.5") = .val (2469/2) := by
      show (match jsParseFloat (stripCommas "1,234.5") with
            | none => JSNum.nan
            | some x => JSNum.val x) = JSNum.val (2469/2)
      rw [h1, jsParseFloat_val hp hv]
    calc validPrices [.str "1,234.5"] = [toNumber (.str "1,234.5")] := rfl
      _ = [.val (2469/2)] := by rw [htn]
      _ = validPrices [.num (2469/2)] := rfl

/-- C1 witness: the amended statement applied at offers priced 100, 200 and
null gives lowest 100, highest 200 and average 150. -/
theorem aggregatePrices_amended_witness :
    getLowestPrice [.num 100, .num 200, .null] = some (.val 100) ∧
    getHighestPrice [.num 100, .num 200, .null] = some (.val 200) ∧
    getAveragePrice [.num 100, .num 200, .null] = some (.val 150) := by
  have h := aggregatePrices_amended.2.1 [.num 100, .num 200, .null] 100 [200] rfl
  refine ⟨?_, ?_, ?_⟩
  · rw [h.1]
    norm_num [List.foldl, min_def]
  · rw [h.2.1]
    norm_num [List.foldl, max_def]
  · rw [h.2.2.1]
    norm_num [List.foldl, toFixed2, round_eq]

/-- C2 witness: the amended statement applied at concrete cascades — the
current-price loop takes the first matching selector, and an all-empty
original-price cascade falls back to the current price. -/
theorem priceSelection_amended_witness :
    firstSelectorText (fun s => if s = "a" then none else some " 12 ") ["a", "b"] =
      some (jsTrim " 12 ") ∧
    originalPriceOf ⟨fun _ => some " ", fun _ => "", fun _ => none⟩ ["x"] (some 7) = some 7 := by
  constructor
  · exact priceSelection_amended.1 (fun s => if s = "a" then none else some " 12 ")
      ["a"] [] "b" " 12 " (by decide) (by decide)
  · exact priceSelection_amended.2.2.2.2.2.2
      ⟨fun _ => some " ", fun _ => "", fun _ => none⟩ ["x"] (some 7)
      (by
        intro s2 _ u hu
        cases hu
        decide)
